import Mathlib

/-!
Shallow embedding of the TerminalView terminal emulator (the bundled pyte
`screens.py` / `streams.py`, the `pyte_terminal_emulator.py` wrapper and the
`linux_pty.py` key encoder), together with proofs about the claims on it.

The repository's `pyte/screens.py` stores the screen buffer as a
`defaultdict(lambda: StaticDefaultDict(default_char))`, i.e. a sparse
insertion-ordered mapping row -> (mapping column -> cell).  We embed both
mappings as insertion-ordered association lists, which reproduces the dict
semantics exactly (presence of keys, insert-on-read of the defaultdict,
`pop`, value updates keeping position).  Machine characters are Lean `Char`,
Python integers are `Int`.  Python exceptions are modelled with
`Except String`: an operation that raises returns `.error msg`.
-/

namespace TView

/-- Python `range(a, b)` (step 1) over `Int`. -/
def rangeAsc (a b : Int) : List Int :=
  (List.range (b - a).toNat).map (fun (i : Nat) => a + (i : Int))

/-- Python `range(start, stop, 8)` over `Int` (used for tab stops). -/
def rangeStep8 (start stop : Int) : List Int :=
  (List.range ((stop - start + 7) / 8).toNat).map (fun (i : Nat) => start + 8 * (i : Int))

/-- Python `range(a, b, -1)`: a, a-1, ..., b+1. -/
def rangeDesc (a b : Int) : List Int :=
  (List.range (a - b).toNat).map (fun (i : Nat) => a - (i : Int))

/-- Lookup in an insertion-ordered association list (dict `get`). -/
def alGet {α : Type} (l : List (Int × α)) (k : Int) : Option α :=
  (l.find? (fun p => p.fst == k)).map Prod.snd

/-- Dict `d[k] = v`: update in place when the key exists, else append. -/
def alSet {α : Type} (l : List (Int × α)) (k : Int) (v : α) : List (Int × α) :=
  if (l.find? (fun p => p.fst == k)).isSome
  then l.map (fun p => if p.fst == k then (k, v) else p)
  else l ++ [(k, v)]

/-- Dict `d.pop(k, None)`: drop the key if present. -/
def alPop {α : Type} (l : List (Int × α)) (k : Int) : List (Int × α) :=
  l.filter (fun p => p.fst != k)

/-- Dict key membership (`k in d`). -/
def alHas {α : Type} (l : List (Int × α)) (k : Int) : Bool :=
  (l.find? (fun p => p.fst == k)).isSome

/-- Replace every stored value (`for x in d: d[x] = f(d[x])`). -/
def alMapVals {α : Type} (f : α → α) (l : List (Int × α)) : List (Int × α) :=
  l.map (fun p => (p.fst, f p.snd))

/-- Insert into a sorted duplicate-free list of ints (CPython iterates a set
of small non-negative ints in increasing order; we keep the dirty set and
the tab-stop set in that normal form). -/
def insertAsc (y : Int) : List Int → List Int
  | [] => [y]
  | x :: xs => if y < x then y :: x :: xs else if y = x then x :: xs else x :: insertAsc y xs

/-- Set `s.update(ys)` for the sorted-list set representation. -/
def setUpdate (d : List Int) (ys : List Int) : List Int :=
  ys.foldl (fun acc y => insertAsc y acc) d

/-- Set `s.discard(y)`. -/
def setDiscard (d : List Int) (y : Int) : List Int :=
  d.filter (fun x => x != y)

/-- A single styled on-screen character (`pyte.screens.Char`; renamed `Cell`
because `Char` is taken in Lean).  `data` is a string because zero-width
combining input appends to the previous cell's data. -/
structure Cell where
  data : String
  fg : String := "default"
  bg : String := "default"
  bold : Bool := false
  italics : Bool := false
  underscore : Bool := false
  strikethrough : Bool := false
  reverse : Bool := false
deriving DecidableEq

/-- `Screen.default_char`: a plain empty character. -/
def default_char : Cell := { data := " " }

/-- Screen cursor (`pyte.screens.Cursor`). -/
structure Cursor where
  x : Int
  y : Int
  attrs : Cell := default_char
  hidden : Bool := false
deriving DecidableEq

/-- Scroll margins (`pyte.screens.Margins`). -/
structure Margins where
  top : Int
  bottom : Int
deriving DecidableEq

/-- Charset translation tables.  `pyte/charsets.py` is not part of the
sources; modelled from the spec: a table of named translation maps
(LAT1, VT100 graphics, plus the IBM-PC and VT220 maps keyed "U" and "K"). -/
inductive CharsetTable where
  | lat1
  | vt100
  | ibmpc
  | vt220
deriving DecidableEq

/-- Modelled from the spec: the VT100 graphics translation (only the part
exercised here; LAT1 is the identity pass-through map). -/
def charsetApply : CharsetTable → Char → Char
  | CharsetTable.lat1, c => c
  | CharsetTable.vt100, c =>
      if c = 'q' then '─' else if c = 'x' then '│' else if c = 'j' then '┘' else c
  | CharsetTable.ibmpc, c => c
  | CharsetTable.vt220, c => c

/-- Modelled from the spec: `charsets.MAPS`, keying the named maps by the
final character of `ESC ( c` / `ESC ) c`. -/
def charsetMAPS (c : Char) : Option CharsetTable :=
  if c = 'B' then some CharsetTable.lat1
  else if c = '0' then some CharsetTable.vt100
  else if c = 'U' then some CharsetTable.ibmpc
  else if c = 'K' then some CharsetTable.vt220
  else none

/-- DECSC savepoint (`pyte.screens.Savepoint`). -/
structure Savepoint where
  cursor : Cursor
  g0_charset : CharsetTable
  g1_charset : CharsetTable
  charset : Int
  origin : Bool
  wrap : Bool
deriving DecidableEq

/-- Modelled from the spec: mode constants from the missing `pyte/modes.py`.
Private mode codes are stored shifted left by 5 bits (spec section 4.3:
"`private=true` variant shifts codes by 5 bits"); DECCOLM is private mode 3
(`CSI ? 3 h`), DECSCNM 5, DECOM 6, DECAWM 7, DECTCEM 25. -/
def LNM : Int := 20

/-- Modelled from the spec: insert/replace mode, non-private code 4. -/
def IRM : Int := 4

/-- Modelled from the spec: 132-column mode, private code 3 shifted by 5. -/
def DECCOLM : Int := 3 * 32

/-- Modelled from the spec: reverse-screen mode, private code 5 shifted by 5. -/
def DECSCNM : Int := 5 * 32

/-- Modelled from the spec: origin mode, private code 6 shifted by 5. -/
def DECOM : Int := 6 * 32

/-- Modelled from the spec: auto-wrap mode, private code 7 shifted by 5. -/
def DECAWM : Int := 7 * 32

/-- Modelled from the spec: cursor-visible mode, private code 25 shifted by 5. -/
def DECTCEM : Int := 25 * 32

/-- A sparse line: insertion-ordered mapping column -> cell
(`StaticDefaultDict`; reads of missing keys yield `default_char` and do not
insert). -/
abbrev Line : Type := List (Int × Cell)

/-- The sparse buffer: insertion-ordered mapping row -> line
(`defaultdict`; reads of missing keys insert a fresh empty line). -/
abbrev Buffer : Type := List (Int × Line)

/-- A bounded deque (`collections.deque(maxlen=n)`).  `items` is stored
left-to-right; appending on the right drops from the left when full. -/
structure Deque where
  maxlen : Int
  items : List Line
deriving DecidableEq

/-- `deque.append`: push right, discard from the left when over capacity. -/
def Deque.append (d : Deque) (a : Line) : Deque :=
  let l := d.items ++ [a]
  { d with items := if l.length > d.maxlen.toNat then l.drop (l.length - d.maxlen.toNat) else l }

/-- `deque.clear`. -/
def Deque.clear (d : Deque) : Deque := { d with items := [] }

/-- History state of the custom history screen
(`History = namedtuple("History", "top bottom ratio size position")`;
the ratio field is a Python float, embedded as a rational). -/
structure History where
  top : Deque
  bottom : Deque
  ratio_q : Rat
  size : Int
  position : Int
deriving DecidableEq

/-- Width/combining metrics for characters.  The source uses the external
`wcwidth` library and `unicodedata.combining`; screen operations are
parameterised over them, and concrete evaluations use `asciiMetrics`. -/
structure CharMetrics where
  wcw : Char → Int
  comb : Char → Bool

/-- The metrics on the ASCII range, matching `wcwidth`: printable ASCII has
width 1, C0 controls and DEL have width -1, and no ASCII char is combining.
(Non-ASCII codepoints, never drawn in the concrete scenarios below, are
given width 1.) -/
def asciiMetrics : CharMetrics :=
  { wcw := fun c => if 0x20 ≤ c.toNat ∧ c.toNat ≤ 0x7e then 1
                    else if c.toNat < 0x20 ∨ c.toNat = 0x7f then -1 else 1,
    comb := fun _ => false }

/-- The complete screen state.  The program only ever instantiates
`CustomHistoryScreen` (a `pyte.DiffScreen` = `pyte.Screen` subclass holding
the extra `history` field), so the embedding uses a single structure for the
base-class fields plus the history.  `input_log` embeds the
`write_process_input` channel: the source method is an overridable hook that
receives the reply strings, and the log records the data passed to it. -/
structure Screen where
  columns : Int
  lines : Int
  savepoints : List Savepoint
  buffer : Buffer
  dirty : List Int
  mode : List Int
  margins : Margins
  title : String
  icon_name : String
  charset : Int
  g0_charset : CharsetTable
  g1_charset : CharsetTable
  tabstops : List Int
  cursor : Cursor
  history : History
  input_log : List String
deriving DecidableEq

/-- Python exceptions are embedded as error strings. -/
abbrev PyResult := Except String Screen

instance {ε α : Type} [DecidableEq ε] [DecidableEq α] : DecidableEq (Except ε α) := fun x y =>
  match x, y with
  | .error a, .error b =>
      if h : a = b then Decidable.isTrue (by rw [h]) else Decidable.isFalse (by simp [h])
  | .ok a, .ok b =>
      if h : a = b then Decidable.isTrue (by rw [h]) else Decidable.isFalse (by simp [h])
  | .error _, .ok _ => Decidable.isFalse (by simp)
  | .ok _, .error _ => Decidable.isFalse (by simp)

/-- Exception propagation: run the continuation unless an exception is
already in flight. -/
def pyBind (r : PyResult) (k : Screen → PyResult) : PyResult :=
  match r with
  | .error e => .error e
  | .ok s => k s

/-- Defaultdict row read `buffer[y]` at the buffer level: returns the stored
line, inserting a fresh empty line when the row is absent. -/
def bufGetRow (b : Buffer) (y : Int) : Buffer × Line :=
  match alGet b y with
  | some l => (b, l)
  | none => (b ++ [(y, ([] : Line))], ([] : Line))

/-- Defaultdict row read `self.buffer[y]` on the screen. -/
def getRow (s : Screen) (y : Int) : Screen × Line :=
  ({ s with buffer := (bufGetRow s.buffer y).fst }, (bufGetRow s.buffer y).snd)

/-- Dict row write `self.buffer[y] = line`. -/
def setRow (s : Screen) (y : Int) (l : Line) : Screen :=
  { s with buffer := alSet s.buffer y l }

/-- `self.buffer.pop(y, None)`. -/
def popRow (s : Screen) (y : Int) : Screen :=
  { s with buffer := alPop s.buffer y }

/-- `StaticDefaultDict` cell read `line[x]` (no insertion). -/
def cellAt (l : Line) (x : Int) : Cell :=
  (alGet l x).getD default_char

/-- Python `count or 1` for an optional CSI argument (both a missing and a
zero argument mean 1). -/
def orOne (o : Option Int) : Int :=
  match o with
  | none => 1
  | some n => if n = 0 then 1 else n

/-- Python `v or d` for the resize arguments (`lines or self.lines`). -/
def orDefault (o : Option Int) (d : Int) : Int :=
  match o with
  | none => d
  | some n => if n = 0 then d else n

/-- Membership in the mode set. -/
def hasMode (s : Screen) (m : Int) : Bool :=
  s.mode.contains m

/-- Python set `mode.update(ms)` (insertion order for new elements). -/
def modeUpdate (mode : List Int) (ms : List Int) : List Int :=
  ms.foldl (fun acc m => if acc.contains m then acc else acc ++ [m]) mode

/-- Python set `mode.difference_update(ms)`. -/
def modeRemove (mode : List Int) (ms : List Int) : List Int :=
  mode.filter (fun m => !(ms.contains m))

/-- `Screen.ensure_hbounds`. -/
def ensure_hbounds (s : Screen) : Screen :=
  { s with cursor := { s.cursor with x := min (max 0 s.cursor.x) (s.columns - 1) } }

/-- `Screen.ensure_vbounds`; the argument embeds Python `use_margins=None`. -/
def ensure_vbounds (use_margins : Option Bool) (s : Screen) : Screen :=
  let useM := use_margins.getD false || hasMode s DECOM
  let top := if useM then s.margins.top else 0
  let bottom := if useM then s.margins.bottom else s.lines - 1
  { s with cursor := { s.cursor with y := min (max top s.cursor.y) bottom } }

/-- `Screen.carriage_return`. -/
def carriage_return (s : Screen) : Screen :=
  { s with cursor := { s.cursor with x := 0 } }

/-- `Screen.cursor_up`. -/
def cursor_up (count : Option Int) (s : Screen) : Screen :=
  { s with cursor := { s.cursor with y := max (s.cursor.y - orOne count) s.margins.top } }

/-- `Screen.cursor_down`. -/
def cursor_down (count : Option Int) (s : Screen) : Screen :=
  { s with cursor := { s.cursor with y := min (s.cursor.y + orOne count) s.margins.bottom } }

/-- `Screen.cursor_up1`. -/
def cursor_up1 (count : Option Int) (s : Screen) : Screen :=
  carriage_return (cursor_up count s)

/-- `Screen.cursor_down1`. -/
def cursor_down1 (count : Option Int) (s : Screen) : Screen :=
  carriage_return (cursor_down count s)

/-- `Screen.cursor_back` (with the just-wrapped adjustment). -/
def cursor_back (count : Option Int) (s : Screen) : Screen :=
  let s := if s.cursor.x = s.columns then { s with cursor := { s.cursor with x := s.cursor.x - 1 } } else s
  ensure_hbounds { s with cursor := { s.cursor with x := s.cursor.x - orOne count } }

/-- `Screen.cursor_forward`. -/
def cursor_forward (count : Option Int) (s : Screen) : Screen :=
  ensure_hbounds { s with cursor := { s.cursor with x := s.cursor.x + orOne count } }

/-- `Screen.backspace`. -/
def backspace (s : Screen) : Screen :=
  cursor_back none s

/-- `Screen.cursor_position` (CUP/HVP); DECOM makes the line relative to the
top margin and refuses to leave the scrolling region. -/
def cursor_position (line : Option Int) (column : Option Int) (s : Screen) : Screen :=
  let column := orOne column - 1
  let line := orOne line - 1
  if hasMode s DECOM then
    let line := line + s.margins.top
    if ¬ (s.margins.top ≤ line ∧ line ≤ s.margins.bottom) then s
    else ensure_vbounds none (ensure_hbounds
      { s with cursor := { s.cursor with x := column, y := line } })
  else
    ensure_vbounds none (ensure_hbounds
      { s with cursor := { s.cursor with x := column, y := line } })

/-- `Screen.cursor_to_column` (CHA/HPA). -/
def cursor_to_column (column : Option Int) (s : Screen) : Screen :=
  ensure_hbounds { s with cursor := { s.cursor with x := orOne column - 1 } }

/-- `Screen.cursor_to_line` (VPA). -/
def cursor_to_line (line : Option Int) (s : Screen) : Screen :=
  let y := orOne line - 1
  let y := if hasMode s DECOM then y + s.margins.top else y
  ensure_vbounds none { s with cursor := { s.cursor with y := y } }

/-- `CustomHistoryScreen.index`: when the cursor sits on the bottom margin
the line leaving the scrolling region is recorded in `history.top`, then the
base `Screen.index` shifts the region up (or just moves the cursor down). -/
def index (s : Screen) : Screen :=
  let top := s.margins.top
  let bottom := s.margins.bottom
  let s :=
    if s.cursor.y = bottom then
      { s with buffer := (bufGetRow s.buffer top).fst,
               history := { s.history with
                 top := s.history.top.append (bufGetRow s.buffer top).snd } }
    else s
  let s :=
    if s.cursor.y = bottom then { s with dirty := setUpdate s.dirty (rangeAsc 0 s.lines) }
    else s
  if s.cursor.y = bottom then
    let b := (rangeAsc top bottom).foldl (fun (b : Buffer) l =>
      let (b1, v) := bufGetRow b (l + 1)
      alSet b1 l v) s.buffer
    { s with buffer := alPop b bottom }
  else
    cursor_down none s

/-- `CustomHistoryScreen.reverse_index`: mirror of `index`, recording into
`history.bottom` and shifting the region down. -/
def reverse_index (s : Screen) : Screen :=
  let top := s.margins.top
  let bottom := s.margins.bottom
  let s :=
    if s.cursor.y = top then
      { s with buffer := (bufGetRow s.buffer bottom).fst,
               history := { s.history with
                 bottom := s.history.bottom.append (bufGetRow s.buffer bottom).snd } }
    else s
  let s :=
    if s.cursor.y = top then { s with dirty := setUpdate s.dirty (rangeAsc 0 s.lines) }
    else s
  if s.cursor.y = top then
    let b := (rangeDesc bottom top).foldl (fun (b : Buffer) l =>
      let (b1, v) := bufGetRow b (l - 1)
      alSet b1 l v) s.buffer
    { s with buffer := alPop b top }
  else
    cursor_up none s

/-- `Screen.linefeed` (LF/VT/FF/NEL). -/
def linefeed (s : Screen) : Screen :=
  let s := index s
  if hasMode s LNM then carriage_return s else s

/-- `Screen.tab`: move to the first tab stop right of the cursor, or the
last column (the tab-stop set is kept sorted, matching `sorted(tabstops)`). -/
def tab (s : Screen) : Screen :=
  let column :=
    match s.tabstops.find? (fun stop => s.cursor.x < stop) with
    | some stop => stop
    | none => s.columns - 1
  { s with cursor := { s.cursor with x := column } }

/-- `Screen.set_tab_stop` (HTS). -/
def set_tab_stop (s : Screen) : Screen :=
  { s with tabstops := insertAsc s.cursor.x s.tabstops }

/-- `Screen.clear_tab_stop` (TBC). -/
def clear_tab_stop (how : Option Int) (s : Screen) : Screen :=
  let how := how.getD 0
  if how = 0 then { s with tabstops := setDiscard s.tabstops s.cursor.x }
  else if how = 3 then { s with tabstops := [] }
  else s

/-- `Screen.shift_in` (SI). -/
def shift_in (s : Screen) : Screen := { s with charset := 0 }

/-- `Screen.shift_out` (SO). -/
def shift_out (s : Screen) : Screen := { s with charset := 1 }

/-- `Screen.set_title`. -/
def set_title (param : String) (s : Screen) : Screen := { s with title := param }

/-- `Screen.set_icon_name`. -/
def set_icon_name (param : String) (s : Screen) : Screen := { s with icon_name := param }

/-- `Screen.set_margins` (DECSTBM): 1-based arguments, clamped; regions of
height < 2 are ignored; a change homes the cursor. -/
def set_margins (top : Option Int) (bottom : Option Int) (s : Screen) : Screen :=
  match top, bottom with
  | some t, some b =>
      let t1 := max 0 (min (t - 1) (s.lines - 1))
      let b1 := max 0 (min (b - 1) (s.lines - 1))
      if b1 - t1 ≥ 1 then
        cursor_position none none { s with margins := { top := t1, bottom := b1 } }
      else s
  | _, _ => { s with margins := { top := 0, bottom := s.lines - 1 } }

/-- `Screen.save_cursor` (DECSC). -/
def save_cursor (s : Screen) : Screen :=
  { s with savepoints := s.savepoints ++
      [{ cursor := s.cursor,
         g0_charset := s.g0_charset,
         g1_charset := s.g1_charset,
         charset := s.charset,
         origin := hasMode s DECOM,
         wrap := hasMode s DECAWM }] }

/-- `Screen.insert_lines` (IL). -/
def insert_lines (count : Option Int) (s : Screen) : Screen :=
  let s := { s with dirty := setUpdate s.dirty (rangeAsc s.cursor.y s.lines) }
  let count := orOne count
  let top := s.margins.top
  let bottom := s.margins.bottom
  if top ≤ s.cursor.y ∧ s.cursor.y ≤ bottom then
    let b := (rangeDesc bottom (s.cursor.y - 1)).foldl (fun (b : Buffer) y =>
      let b :=
        if y + count ≤ bottom ∧ alHas b y then
          alSet b (y + count) ((alGet b y).getD [])
        else b
      alPop b y) s.buffer
    carriage_return { s with buffer := b }
  else s

/-- `Screen.delete_lines` (DL).  Note the source's `else` belongs to the
outer bounds check: a row whose source row `y + count` is absent from the
sparse buffer is left unchanged. -/
def delete_lines (count : Option Int) (s : Screen) : Screen :=
  let s := { s with dirty := setUpdate s.dirty (rangeAsc s.cursor.y s.lines) }
  let count := orOne count
  let top := s.margins.top
  let bottom := s.margins.bottom
  if top ≤ s.cursor.y ∧ s.cursor.y ≤ bottom then
    let b := (rangeAsc s.cursor.y (bottom + 1)).foldl (fun (b : Buffer) y =>
      if y + count ≤ bottom then
        if alHas b (y + count) then
          alSet (alPop b (y + count)) y ((alGet b (y + count)).getD [])
        else b
      else alPop b y) s.buffer
    carriage_return { s with buffer := b }
  else s

/-- `Screen.insert_characters` (ICH). -/
def insert_characters (count : Option Int) (s : Screen) : Screen :=
  let s := { s with dirty := insertAsc s.cursor.y s.dirty }
  let count := orOne count
  let b := (bufGetRow s.buffer s.cursor.y).fst
  let line0 := (bufGetRow s.buffer s.cursor.y).snd
  let line := (rangeDesc s.columns (s.cursor.x - 1)).foldl (fun (l : Line) x =>
      let l := if x + count ≤ s.columns then alSet l (x + count) (cellAt l x) else l
      alPop l x) line0
  { s with buffer := alSet b s.cursor.y line }

/-- `Screen.delete_characters` (DCH). -/
def delete_characters (count : Option Int) (s : Screen) : Screen :=
  let s := { s with dirty := insertAsc s.cursor.y s.dirty }
  let count := orOne count
  let b := (bufGetRow s.buffer s.cursor.y).fst
  let line0 := (bufGetRow s.buffer s.cursor.y).snd
  let line := (rangeAsc s.cursor.x s.columns).foldl (fun (l : Line) x =>
      if x + count ≤ s.columns then
        alSet (alPop l (x + count)) x ((alGet l (x + count)).getD default_char)
      else alPop l x) line0
  { s with buffer := alSet b s.cursor.y line }

/-- `Screen.erase_characters` (ECH): set the cells in the erased span to the
cursor attrs (`self.buffer[self.cursor.y][x] = self.cursor.attrs` per
column; the repeated defaultdict row reads fetch the same row). -/
def erase_characters (count : Option Int) (s : Screen) : Screen :=
  let s := { s with dirty := insertAsc s.cursor.y s.dirty }
  let count := orOne count
  let b := (bufGetRow s.buffer s.cursor.y).fst
  let line0 := (bufGetRow s.buffer s.cursor.y).snd
  let line := (rangeAsc s.cursor.x (min (s.cursor.x + count) s.columns)).foldl
      (fun (l : Line) x => alSet l x s.cursor.attrs) line0
  { s with buffer := alSet b s.cursor.y line }

/-- `Screen.erase_in_line` (EL).  A `how` outside 0..2 leaves the local
`interval` unassigned and the loop header raises `NameError`. -/
def erase_in_line (how : Int) (priv : Bool) (s : Screen) : PyResult :=
  let s := { s with dirty := insertAsc s.cursor.y s.dirty }
  let interval : Option (List Int) :=
    if how = 0 then some (rangeAsc s.cursor.x s.columns)
    else if how = 1 then some (rangeAsc 0 (s.cursor.x + 1))
    else if how = 2 then some (rangeAsc 0 s.columns)
    else none
  let b := (bufGetRow s.buffer s.cursor.y).fst
  let line := (bufGetRow s.buffer s.cursor.y).snd
  match interval with
  | none => .error "NameError: interval"
  | some xs =>
      .ok { s with
        buffer := alSet b s.cursor.y
          (xs.foldl (fun (l : Line) x => alSet l x s.cursor.attrs) line) }

/-- Overwrite every cell present in the given rows with the cursor attrs
(`for y in interval: line = self.buffer[y]; for x in line: ...`). -/
def eraseRows (rows : List Int) (s : Screen) : Screen :=
  { s with buffer := rows.foldl (fun (b : Buffer) y =>
      let (b1, line) := bufGetRow b y
      alSet b1 y (alMapVals (fun _ => s.cursor.attrs) line)) s.buffer }

/-- The base `Screen.erase_in_display` (ED), which raises `NameError` for
`how` outside 0..3. -/
def erase_in_display_base (how : Int) (priv : Bool) (s : Screen) : PyResult :=
  if how = 0 then
    let s := { s with dirty := setUpdate s.dirty (rangeAsc (s.cursor.y + 1) s.lines) }
    let s := eraseRows (rangeAsc (s.cursor.y + 1) s.lines) s
    erase_in_line 0 priv s
  else if how = 1 then
    let s := { s with dirty := setUpdate s.dirty (rangeAsc 0 s.cursor.y) }
    let s := eraseRows (rangeAsc 0 s.cursor.y) s
    erase_in_line 1 priv s
  else if how = 2 ∨ how = 3 then
    let s := { s with dirty := setUpdate s.dirty (rangeAsc 0 s.lines) }
    .ok (eraseRows (rangeAsc 0 s.lines) s)
  else .error "NameError: interval"

/-- `CustomHistoryScreen.erase_in_display`: the base method plus the
history reset on `how == 3`. -/
def erase_in_display (how : Int) (priv : Bool) (s : Screen) : PyResult :=
  pyBind (erase_in_display_base how priv s) (fun s =>
    .ok (if how = 3 then
      { s with history := { s.history with top := s.history.top.clear,
                                           bottom := s.history.bottom.clear,
                                           position := s.history.size } }
    else s))

/-- Modelled from the spec: `graphics.FG_ANSI` (missing `pyte/graphics.py`). -/
def fgAnsi (n : Int) : Option String :=
  if n = 30 then some "black" else if n = 31 then some "red"
  else if n = 32 then some "green" else if n = 33 then some "brown"
  else if n = 34 then some "blue" else if n = 35 then some "magenta"
  else if n = 36 then some "cyan" else if n = 37 then some "white"
  else if n = 39 then some "default" else none

/-- Modelled from the spec: `graphics.BG_ANSI`. -/
def bgAnsi (n : Int) : Option String :=
  if n = 40 then some "black" else if n = 41 then some "red"
  else if n = 42 then some "green" else if n = 43 then some "brown"
  else if n = 44 then some "blue" else if n = 45 then some "magenta"
  else if n = 46 then some "cyan" else if n = 47 then some "white"
  else if n = 49 then some "default" else none

/-- Modelled from the spec: `graphics.TEXT` set/reset pairs as cell updates. -/
def sgrText (n : Int) : Option (Cell → Cell) :=
  if n = 1 then some (fun c => { c with bold := true })
  else if n = 3 then some (fun c => { c with italics := true })
  else if n = 4 then some (fun c => { c with underscore := true })
  else if n = 7 then some (fun c => { c with reverse := true })
  else if n = 9 then some (fun c => { c with strikethrough := true })
  else if n = 22 then some (fun c => { c with bold := false })
  else if n = 23 then some (fun c => { c with italics := false })
  else if n = 24 then some (fun c => { c with underscore := false })
  else if n = 27 then some (fun c => { c with reverse := false })
  else if n = 29 then some (fun c => { c with strikethrough := false })
  else none

/-- Modelled from the spec: AIXTERM bright foregrounds 90..97 (bold implied). -/
def fgAix (n : Int) : Option String :=
  if 90 ≤ n ∧ n ≤ 97 then fgAnsi (n - 60) else none

/-- Modelled from the spec: AIXTERM bright backgrounds 100..107 (bold implied). -/
def bgAix (n : Int) : Option String :=
  if 100 ≤ n ∧ n ≤ 107 then bgAnsi (n - 60) else none

/-- Modelled from the spec: the 256-colour palette lookup `FG_BG_256[m]`
(an out-of-range index raises `IndexError`, reported as `none` here). -/
def palette256 (m : Int) : Option String :=
  if 0 ≤ m ∧ m < 256 then some ("color" ++ toString m) else none

/-- Two-digit lowercase hex as produced by Python format `{0:02x}`. -/
def hex2 (n : Int) : String :=
  let ds := Nat.toDigits 16 n.toNat
  String.mk (if ds.length < 2 then '0' :: ds else ds)

/-- The attribute-accumulation loop of `Screen.select_graphic_rendition`.
The accumulated `replace` dict is embedded as a cell-update function (later
writes to the same field overwrite earlier ones, as in the dict).  `38`/`48`
pop the following arguments; the first lookahead pop happens outside the
`try` block, so `ESC[38m` raises an uncaught `IndexError`. -/
def sgrGo : List Int → (Cell → Cell) → Except String (Cell → Cell)
  | [], repl => .ok repl
  | attr :: rest, repl =>
    match fgAnsi attr with
    | some name => sgrGo rest (fun c => { repl c with fg := name })
    | none =>
    match bgAnsi attr with
    | some name => sgrGo rest (fun c => { repl c with bg := name })
    | none =>
    match sgrText attr with
    | some f => sgrGo rest (fun c => f (repl c))
    | none =>
    match fgAix attr with
    | some name => sgrGo rest (fun c => { repl c with fg := name, bold := true })
    | none =>
    match bgAix attr with
    | some name => sgrGo rest (fun c => { repl c with bg := name, bold := true })
    | none =>
    if attr = 38 ∨ attr = 48 then
      match rest with
      | [] => .error "IndexError: pop from empty list"
      | n :: rest2 =>
        if n = 5 then
          match rest2 with
          | [] => .ok repl
          | m :: rest3 =>
            match palette256 m with
            | some name =>
                if attr = 38 then sgrGo rest3 (fun c => { repl c with fg := name })
                else sgrGo rest3 (fun c => { repl c with bg := name })
            | none => sgrGo rest3 repl
        else if n = 2 then
          match rest2 with
          | r :: g :: b :: rest3 =>
              let name := hex2 r ++ hex2 g ++ hex2 b
              if attr = 38 then sgrGo rest3 (fun c => { repl c with fg := name })
              else sgrGo rest3 (fun c => { repl c with bg := name })
          | _ => .ok repl
        else sgrGo rest2 repl
    else sgrGo rest repl

/-- `Screen.select_graphic_rendition` (SGR). -/
def select_graphic_rendition (attrs : List Int) (s : Screen) : PyResult :=
  if attrs = [] ∨ attrs = [0] then
    .ok { s with cursor := { s.cursor with attrs := default_char } }
  else
    match sgrGo attrs id with
    | .error e => .error e
    | .ok repl => .ok { s with cursor := { s.cursor with attrs := repl s.cursor.attrs } }

/-- `CustomHistoryScreen.resize`.  Every control path of this method raises
on the bundled code base: the buffer is the pyte-0.7 sparse dict, but the
method (copied from the pyte-0.5 history screen) manipulates it as a list:
growing lines calls `self.buffer.extend` (AttributeError), shrinking lines
assigns to a slice of the dict (TypeError: unhashable slice), growing
columns reads `self.default_line` and calls `.extend` on a row dict
(AttributeError), shrinking columns runs `del line[columns:]` on the int
keys produced by iterating the dict (TypeError) when the buffer has keys,
and the remaining path reaches `self.ensure_bounds(use_margins=True)`
(AttributeError: pyte-0.7 `Screen` only defines `ensure_hbounds` /
`ensure_vbounds`), before the tab stops would have been updated. -/
def resize (lines0 : Option Int) (columns0 : Option Int) (s : Screen) : PyResult :=
  let lines := orDefault lines0 s.lines
  let columns := orDefault columns0 s.columns
  let line_diff := s.lines - lines
  if line_diff < 0 then .error "AttributeError: buffer.extend"
  else if line_diff > 0 then .error "TypeError: unhashable slice key"
  else
    let col_diff := s.columns - columns
    if col_diff < 0 then .error "AttributeError: default_line / row.extend"
    else if 0 < col_diff ∧ s.buffer ≠ [] then .error "TypeError: del on int key"
    else .error "AttributeError: ensure_bounds"

/-- Mark all stored cells reverse/non-reverse (the DECSCNM bulk update). -/
def reverseAll (b : Bool) (s : Screen) : Screen :=
  { s with buffer := s.buffer.map (fun p => (p.fst, alMapVals (fun c => { c with reverse := b }) p.snd)) }

/-- `Screen.set_mode` (SM).  Private codes are shifted left by 5; DECCOLM
triggers the (always-raising) resize, so the erase/home continuation after
it never executes. -/
def set_mode (ms : List Int) (priv : Bool) (s : Screen) : PyResult :=
  let ms := if priv then ms.map (fun m => m * 32) else ms
  let s :=
    if priv ∧ ms.contains DECSCNM then { s with dirty := setUpdate s.dirty (rangeAsc 0 s.lines) }
    else s
  let s := { s with mode := modeUpdate s.mode ms }
  pyBind
    (if ms.contains DECCOLM then
      pyBind (resize none (some 132) s) (fun s1 =>
        pyBind (erase_in_display 2 false s1) (fun s2 =>
          .ok (cursor_position none none s2)))
    else .ok s) (fun s =>
  let s := if ms.contains DECOM then cursor_position none none s else s
  pyBind
    (if ms.contains DECSCNM then select_graphic_rendition [7] (reverseAll true s)
    else .ok s) (fun s =>
  .ok (if ms.contains DECTCEM then { s with cursor := { s.cursor with hidden := false } } else s)))

/-- `Screen.reset_mode` (RM), the mirror of `set_mode`. -/
def reset_mode (ms : List Int) (priv : Bool) (s : Screen) : PyResult :=
  let ms := if priv then ms.map (fun m => m * 32) else ms
  let s :=
    if priv ∧ ms.contains DECSCNM then { s with dirty := setUpdate s.dirty (rangeAsc 0 s.lines) }
    else s
  let s := { s with mode := modeRemove s.mode ms }
  pyBind
    (if ms.contains DECCOLM then
      pyBind (resize none (some 80) s) (fun s1 =>
        pyBind (erase_in_display 2 false s1) (fun s2 =>
          .ok (cursor_position none none s2)))
    else .ok s) (fun s =>
  let s := if ms.contains DECOM then cursor_position none none s else s
  pyBind
    (if ms.contains DECSCNM then select_graphic_rendition [27] (reverseAll false s)
    else .ok s) (fun s =>
  .ok (if ms.contains DECTCEM then { s with cursor := { s.cursor with hidden := true } } else s)))

/-- `Screen.restore_cursor` (DECRC). -/
def restore_cursor (s : Screen) : PyResult :=
  match s.savepoints.getLast? with
  | some sp =>
      let s := { s with savepoints := s.savepoints.dropLast,
                        g0_charset := sp.g0_charset,
                        g1_charset := sp.g1_charset,
                        charset := sp.charset }
      pyBind (if sp.origin then set_mode [DECOM] false s else .ok s) (fun s =>
        pyBind (if sp.wrap then set_mode [DECAWM] false s else .ok s) (fun s =>
          .ok (ensure_vbounds (some true) (ensure_hbounds { s with cursor := sp.cursor }))))
  | none =>
      pyBind (reset_mode [DECOM] false s) (fun s => .ok (cursor_position none none s))

/-- `Screen.define_charset`: defines G0/G1 from the MAPS table.  Note this
method is dead code on this code base: the stream dispatches the event name
`"set_charset"`, which no screen class defines (see `feed` below). -/
def define_charset (code : Char) (mode : Char) (s : Screen) : Screen :=
  match charsetMAPS code with
  | none => s
  | some m =>
      if mode = '(' then { s with g0_charset := m }
      else if mode = ')' then { s with g1_charset := m }
      else s

/-- `Screen.alignment_display` (DECALN). -/
def alignment_display (s : Screen) : Screen :=
  let s := { s with dirty := setUpdate s.dirty (rangeAsc 0 s.lines) }
  { s with buffer := (rangeAsc 0 s.lines).foldl (fun (b : Buffer) y =>
      (rangeAsc 0 s.columns).foldl (fun (b2 : Buffer) x =>
        let (b3, line) := bufGetRow b2 y
        alSet b3 y (alSet line x { cellAt line x with data := "E" })) b) s.buffer }

/-- The control-function prefix used for replies: the repository's
`pyte/control.py` defines `CSI = "\x9b"` (the single C1 byte, not
`ESC [`), and `report_device_attributes` / `report_device_status`
prepend exactly this string. -/
def ctrlCSI : String := "\x9b"

/-- `Screen.write_process_input`: the hook receiving reply strings (a noop
in the source; the log records the data each call passes to it). -/
def write_process_input (data : String) (s : Screen) : Screen :=
  { s with input_log := s.input_log ++ [data] }

/-- `Screen.report_device_attributes` (DA). -/
def report_device_attributes (mode : Option Int) (s : Screen) : Screen :=
  if mode.getD 0 = 0 then write_process_input (ctrlCSI ++ "?6c") s else s

/-- `Screen.report_device_status` (DSR): 5 reports terminal status, 6 the
1-based cursor position (origin-relative when DECOM is set). -/
def report_device_status (mode : Int) (s : Screen) : Screen :=
  if mode = 5 then write_process_input (ctrlCSI ++ "0n") s
  else if mode = 6 then
    let x := s.cursor.x + 1
    let y := s.cursor.y + 1
    let y := if hasMode s DECOM then y - s.margins.top else y
    write_process_input (ctrlCSI ++ toString y ++ ";" ++ toString x ++ "R") s
  else s

/-- `CustomHistoryScreen.reset_history`. -/
def reset_history (s : Screen) : Screen :=
  { s with history := { s.history with top := s.history.top.clear,
                                       bottom := s.history.bottom.clear,
                                       position := s.history.size } }

/-- `CustomHistoryScreen.reset` (RIS).  The class body defines `reset`
twice; the second definition wins, so only the base `Screen.reset` plus
`reset_history` run — the first definition's tab-stop override (multiples
of 8) is shadowed and the base `range(7, columns, 8)` stops remain. -/
def reset (s : Screen) : Screen :=
  let s := { s with dirty := setUpdate s.dirty (rangeAsc 0 s.lines),
                    buffer := [],
                    mode := [DECAWM, DECTCEM],
                    margins := { top := 0, bottom := s.lines - 1 },
                    title := "", icon_name := "",
                    charset := 0,
                    g0_charset := CharsetTable.lat1,
                    g1_charset := CharsetTable.vt100,
                    tabstops := rangeStep8 7 s.columns,
                    cursor := { x := 0, y := 0 } }
  let s := cursor_position none none s
  reset_history s

/-- `Screen.bell`, `Screen.debug` and the missing `charset_default` /
`charset_utf8` / `set_charset` handlers: all noops (the last three because
`Stream.dispatch` swallows the `AttributeError` for missing handlers). -/
def noopEvent (s : Screen) : Screen := s

/-- The per-character loop of `Screen.draw`; a character that is neither
1-cell, 2-cell nor zero-width-combining `break`s, discarding the rest. -/
def drawPrep (M : CharMetrics) (c : Char) (s : Screen) : Screen :=
  let w := M.wcw c
  let s :=
    if s.cursor.x = s.columns then
      if hasMode s DECAWM then
        linefeed (carriage_return { s with dirty := insertAsc s.cursor.y s.dirty })
      else if 0 < w then { s with cursor := { s.cursor with x := s.cursor.x - w } }
      else s
    else s
  if hasMode s IRM ∧ 0 < w then insert_characters (some w) s else s

def drawGo (M : CharMetrics) : List Char → Screen → Screen
  | [], s => s
  | c :: cs, s =>
    let w := M.wcw c
    let s := drawPrep M c s
    let line := (getRow s s.cursor.y).snd
    let s := (getRow s s.cursor.y).fst
    if w = 1 then
      let s := setRow s s.cursor.y (alSet line s.cursor.x { s.cursor.attrs with data := String.mk [c] })
      drawGo M cs { s with cursor := { s.cursor with x := min (s.cursor.x + w) s.columns } }
    else if w = 2 then
      let line := alSet line s.cursor.x { s.cursor.attrs with data := String.mk [c] }
      let line :=
        if s.cursor.x + 1 < s.columns then alSet line (s.cursor.x + 1) { s.cursor.attrs with data := " " }
        else line
      let s := setRow s s.cursor.y line
      drawGo M cs { s with cursor := { s.cursor with x := min (s.cursor.x + w) s.columns } }
    else if w = 0 ∧ M.comb c then
      let s :=
        if s.cursor.x ≠ 0 then
          let last := cellAt line (s.cursor.x - 1)
          setRow s s.cursor.y (alSet line (s.cursor.x - 1) { last with data := last.data.push c })
        else if s.cursor.y ≠ 0 then
          let prev := (getRow s (s.cursor.y - 1)).snd
          let s1 := (getRow s (s.cursor.y - 1)).fst
          let last := cellAt prev (s1.columns - 1)
          setRow s1 (s.cursor.y - 1) (alSet prev (s1.columns - 1) { last with data := last.data.push c })
        else s
      drawGo M cs s
    else s

/-- `Screen.draw`: charset translation, the per-character loop, and the
final dirty mark on the cursor row.  NFC composition of combining input is
embedded as string append (the Unicode tables live outside the repository). -/
def draw (M : CharMetrics) (data : List Char) (s : Screen) : Screen :=
  let table := if s.charset ≠ 0 then s.g1_charset else s.g0_charset
  let s := drawGo M (data.map (charsetApply table)) s
  { s with dirty := insertAsc s.cursor.y s.dirty }

/-- `CustomHistoryScreen.prev_page`.  When the guard passes, the first
statement evaluates `self.buffer[-mid:]` — a slice read of the sparse dict
buffer, which raises `TypeError: unhashable type: slice` before any state
changes (the method was copied from the list-buffer pyte-0.5 screen). -/
def prev_page (s : Screen) : PyResult :=
  if s.history.position > s.lines ∧ s.history.top.items ≠ [] then
    let _mid := min (Int.ofNat s.history.top.items.length)
                    (Rat.ceil ((s.lines : Rat) * s.history.ratio_q))
    .error "TypeError: unhashable slice key in buffer[-mid:]"
  else .ok s

/-- `CustomHistoryScreen.next_page`: same failure as `prev_page` via
`self.history.top.extend(self.buffer[:mid])`. -/
def next_page (s : Screen) : PyResult :=
  if s.history.position < s.history.size ∧ s.history.bottom.items ≠ [] then
    let _mid := min (Int.ofNat s.history.bottom.items.length)
                    (Rat.ceil ((s.lines : Rat) * s.history.ratio_q))
    .error "TypeError: unhashable slice key in buffer[:mid]"
  else .ok s

/-- The `while self.history.position < self.history.size: self.next_page()`
loop of `CustomHistoryScreen.scroll_to_bottom`, with explicit fuel.
`.ok none` means the fuel ran out with the loop still spinning. -/
def scroll_to_bottomAux : Nat → Screen → Except String (Option Screen)
  | 0, s => if s.history.position < s.history.size then .ok none else .ok (some s)
  | fuel + 1, s =>
      if s.history.position < s.history.size then
        match next_page s with
        | .error e => .error e
        | .ok s1 => scroll_to_bottomAux fuel s1
      else .ok (some s)

/-- `CustomHistoryScreen.scroll_to_bottom`.  When `position < size` the loop
either raises inside `next_page` (non-empty bottom queue) or spins forever
(`next_page` is a guarded noop otherwise); the divergence is embedded as a
distinguished error. -/
def scroll_to_bottom (s : Screen) : PyResult :=
  match scroll_to_bottomAux ((s.history.size - s.history.position).toNat + 1) s with
  | .error e => .error e
  | .ok (some t) => .ok t
  | .ok none => .error "nontermination: scroll_to_bottom makes no progress"

/-- `CustomHistoryScreen.ensure_screen_width`.  `for idx, line in
enumerate(self.buffer)` iterates the dict, so `line` is an int row key and
`len(line)` raises `TypeError` as soon as the buffer has any key; on an
empty buffer only the cursor-visibility update runs. -/
def ensure_screen_width (s : Screen) : PyResult :=
  if s.buffer ≠ [] then .error "TypeError: len() of int row key"
  else
    .ok { s with cursor := { s.cursor with hidden :=
      !(decide (|s.history.position - s.history.size| < s.lines) && hasMode s DECTCEM) } }

/-- Parser state of the single-state FSM coroutine in `Stream._parser_fsm`:
the position between `yield`s, together with the CSI accumulator.
`current` embeds the digit string (`none` is the empty string). -/
inductive PMode where
  | ground
  | esc
  | sharp
  | percent
  | charsetSel (mode : Char)
  | csi (params : List Int) (current : Option Nat) (priv : Bool)
deriving DecidableEq

/-- The CSI final-byte table `Stream.csi` (command characters modelled from
the spec for the missing `pyte/escape.py` constants). -/
inductive CsiCmd where
  | ich | cuu | cud | cuf | cub | cnl | cpl | cha | cup | ed | el | il | dl
  | dch | ech | hpr | da | vpa | vpr | hvp | tbc | sm | rm | sgr | dsr
  | decstbm | hpa | debug
deriving DecidableEq

/-- Final byte to CSI command (unknown bytes go to `debug`). -/
def csiTable (c : Char) : CsiCmd :=
  if c = '@' then .ich else if c = 'A' then .cuu else if c = 'B' then .cud
  else if c = 'C' then .cuf else if c = 'D' then .cub else if c = 'E' then .cnl
  else if c = 'F' then .cpl else if c = 'G' then .cha else if c = 'H' then .cup
  else if c = 'J' then .ed else if c = 'K' then .el else if c = 'L' then .il
  else if c = 'M' then .dl else if c = 'P' then .dch else if c = 'X' then .ech
  else if c = 'a' then .hpr else if c = 'c' then .da else if c = 'd' then .vpa
  else if c = 'e' then .vpr else if c = 'f' then .hvp else if c = 'g' then .tbc
  else if c = 'h' then .sm else if c = 'l' then .rm else if c = 'm' then .sgr
  else if c = 'n' then .dsr else if c = 'r' then .decstbm
  else if c = '`' then .hpa else .debug

/-- Split a CSI parameter list for a one-argument handler; Python raises
`TypeError` when more positional arguments arrive than the handler takes. -/
def oneOpt (params : List Int) : Except String (Option Int) :=
  match params with
  | [] => .ok none
  | [a] => .ok (some a)
  | _ => .error "TypeError: too many arguments"

/-- Split a CSI parameter list for a two-argument handler. -/
def twoOpt (params : List Int) : Except String (Option Int × Option Int) :=
  match params with
  | [] => .ok (none, none)
  | [a] => .ok (some a, none)
  | [a, b] => .ok (some a, some b)
  | _ => .error "TypeError: too many arguments"

/-- Dispatch of a finished CSI sequence (`dispatch(csi[char], *params)` or
with `private=True`).  Handlers without a `private` parameter or `**kwargs`
raise `TypeError` when the private flag adds the keyword argument. -/
def handleCsi (cmd : CsiCmd) (params : List Int) (priv : Bool) (s : Screen) : PyResult :=
  match cmd with
  | .debug => .ok s
  | .sm => set_mode params priv s
  | .rm => reset_mode params priv s
  | .sgr =>
      if priv then .error "TypeError: unexpected keyword private"
      else select_graphic_rendition params s
  | .ed =>
      match params with
      | [] => erase_in_display 0 priv s
      | [a] => erase_in_display a priv s
      | [a, b] =>
          if priv then .error "TypeError: multiple values for private"
          else erase_in_display a (b ≠ 0) s
      | _ => .error "TypeError: too many arguments"
  | .el =>
      match params with
      | [] => erase_in_line 0 priv s
      | [a] => erase_in_line a priv s
      | [a, b] =>
          if priv then .error "TypeError: multiple values for private"
          else erase_in_line a (b ≠ 0) s
      | _ => .error "TypeError: too many arguments"
  | .da =>
      match oneOpt params with
      | .error e => .error e
      | .ok m => .ok (report_device_attributes m s)
  | .dsr =>
      if priv then .error "TypeError: unexpected keyword private"
      else
        match params with
        | [a] => .ok (report_device_status a s)
        | [] => .error "TypeError: missing argument mode"
        | _ => .error "TypeError: too many arguments"
  | .cup =>
      if priv then .error "TypeError: unexpected keyword private"
      else
        match twoOpt params with
        | .error e => .error e
        | .ok (l, c) => .ok (cursor_position l c s)
  | .hvp =>
      if priv then .error "TypeError: unexpected keyword private"
      else
        match twoOpt params with
        | .error e => .error e
        | .ok (l, c) => .ok (cursor_position l c s)
  | .decstbm =>
      if priv then .error "TypeError: unexpected keyword private"
      else
        match twoOpt params with
        | .error e => .error e
        | .ok (t, b) => .ok (set_margins t b s)
  | .ich =>
      if priv then .error "TypeError: unexpected keyword private"
      else (oneOpt params).map (fun n => insert_characters n s)
  | .cuu =>
      if priv then .error "TypeError: unexpected keyword private"
      else (oneOpt params).map (fun n => cursor_up n s)
  | .cud =>
      if priv then .error "TypeError: unexpected keyword private"
      else (oneOpt params).map (fun n => cursor_down n s)
  | .cuf =>
      if priv then .error "TypeError: unexpected keyword private"
      else (oneOpt params).map (fun n => cursor_forward n s)
  | .cub =>
      if priv then .error "TypeError: unexpected keyword private"
      else (oneOpt params).map (fun n => cursor_back n s)
  | .cnl =>
      if priv then .error "TypeError: unexpected keyword private"
      else (oneOpt params).map (fun n => cursor_down1 n s)
  | .cpl =>
      if priv then .error "TypeError: unexpected keyword private"
      else (oneOpt params).map (fun n => cursor_up1 n s)
  | .cha =>
      if priv then .error "TypeError: unexpected keyword private"
      else (oneOpt params).map (fun n => cursor_to_column n s)
  | .hpa =>
      if priv then .error "TypeError: unexpected keyword private"
      else (oneOpt params).map (fun n => cursor_to_column n s)
  | .hpr =>
      if priv then .error "TypeError: unexpected keyword private"
      else (oneOpt params).map (fun n => cursor_forward n s)
  | .vpa =>
      if priv then .error "TypeError: unexpected keyword private"
      else (oneOpt params).map (fun n => cursor_to_line n s)
  | .vpr =>
      if priv then .error "TypeError: unexpected keyword private"
      else (oneOpt params).map (fun n => cursor_down n s)
  | .il =>
      if priv then .error "TypeError: unexpected keyword private"
      else (oneOpt params).map (fun n => insert_lines n s)
  | .dl =>
      if priv then .error "TypeError: unexpected keyword private"
      else (oneOpt params).map (fun n => delete_lines n s)
  | .dch =>
      if priv then .error "TypeError: unexpected keyword private"
      else (oneOpt params).map (fun n => delete_characters n s)
  | .ech =>
      if priv then .error "TypeError: unexpected keyword private"
      else (oneOpt params).map (fun n => erase_characters n s)
  | .tbc =>
      if priv then .error "TypeError: unexpected keyword private"
      else (oneOpt params).map (fun n => clear_tab_stop n s)

/-- The `Stream.basic` C0 dispatch. -/
def handleBasic (c : Char) (s : Screen) : Screen :=
  if c = '\x07' then s
  else if c = '\x08' then backspace s
  else if c = '\x09' then tab s
  else if c = '\x0a' ∨ c = '\x0b' ∨ c = '\x0c' then linefeed s
  else if c = '\x0d' then carriage_return s
  else if c = '\x0e' then shift_out s
  else if c = '\x0f' then shift_in s
  else s

/-- Membership in `Stream.basic`. -/
def isBasic (c : Char) : Bool :=
  c = '\x07' ∨ c = '\x08' ∨ c = '\x09' ∨ c = '\x0a' ∨ c = '\x0b' ∨ c = '\x0c' ∨
  c = '\x0d' ∨ c = '\x0e' ∨ c = '\x0f'

/-- The C0 characters flushed through basic dispatch inside a CSI sequence. -/
def allowedInCsi (c : Char) : Bool :=
  c = '\x07' ∨ c = '\x08' ∨ c = '\x09' ∨ c = '\x0a' ∨ c = '\x0b' ∨ c = '\x0c' ∨
  c = '\x0d'

/-- The `Stream.escape` dispatch after a bare ESC (unknown finals dispatch
`debug`, a noop). -/
def handleEsc (c : Char) (s : Screen) : PyResult :=
  if c = 'c' then .ok (reset s)
  else if c = 'D' then .ok (index s)
  else if c = 'E' then .ok (linefeed s)
  else if c = 'M' then .ok (reverse_index s)
  else if c = 'H' then .ok (set_tab_stop s)
  else if c = '7' then .ok (save_cursor s)
  else if c = '8' then restore_cursor s
  else .ok s

/-- One step of the parser FSM (`Stream._parser_fsm` between `yield`s). -/
def pstep (M : CharMetrics) (pm : PMode) (c : Char) (s : Screen) : Except String (PMode × Screen) :=
  match pm with
  | .ground =>
      if c = '\x1b' then .ok (.esc, s)
      else if isBasic c then .ok (.ground, handleBasic c s)
      else if c = '\x9b' then .ok (.csi [] none false, s)
      else if c = '\x00' ∨ c = '\x7f' then .ok (.ground, s)
      else .ok (.ground, draw M [c] s)
  | .esc =>
      if c = '[' then .ok (.csi [] none false, s)
      else if c = '#' then .ok (.sharp, s)
      else if c = '%' then .ok (.percent, s)
      else if c = '(' ∨ c = ')' then .ok (.charsetSel c, s)
      else (handleEsc c s).map (fun s1 => (.ground, s1))
  | .sharp =>
      .ok (.ground, if c = '8' then alignment_display s else s)
  | .percent =>
      .ok (.ground, s)
  | .charsetSel _ =>
      .ok (.ground, s)
  | .csi params current priv =>
      if c = '?' then .ok (.csi params current true, s)
      else if allowedInCsi c then .ok (.csi params current priv, handleBasic c s)
      else if c = ' ' ∨ c = '>' then .ok (.csi params current priv, s)
      else if c = '\x18' ∨ c = '\x1a' then .ok (.ground, draw M [c] s)
      else if c.isDigit then
        .ok (.csi params (some ((current.getD 0) * 10 + (c.toNat - 48))) priv, s)
      else
        let params := params ++ [min (Int.ofNat (current.getD 0)) 9999]
        if c = ';' then .ok (.csi params none priv, s)
        else (handleCsi (csiTable c) params priv s).map (fun s1 => (.ground, s1))

/-- `Stream.feed` over a list of already-decoded characters: events are
dispatched strictly in input order; an exception aborts the rest. -/
def feedChars (M : CharMetrics) : List Char → PMode → Screen → Except String (PMode × Screen)
  | [], pm, s => .ok (pm, s)
  | c :: cs, pm, s =>
      match pstep M pm c s with
      | .error e => .error e
      | .ok (pm1, s1) => feedChars M cs pm1 s1

/-- The ASCII fragment of `ByteStream.feed`'s decoder chain: strict UTF-8
decodes ASCII bytes to themselves (every byte string evaluated below is
ASCII; non-ASCII input is outside this embedding). -/
def decodeAscii (bs : List Nat) : Option (List Char) :=
  if bs.all (fun b => b < 128) then some (bs.map Char.ofNat) else none

/-- The emulator facade `PyteTerminalEmulator`: its screen, the persistent
parser state, and the modified flag. -/
structure Emulator where
  screen : Screen
  pmode : PMode
  modified : Bool
deriving DecidableEq

/-- `CustomHistoryScreen.__init__` (including the `Screen.__init__` call,
whose trailing `self.reset()` resolves to the overridden reset) followed by
the custom tab-stop seeding at multiples of 8. -/
def initScreen (columns lines history : Int) (ratio_q : Rat) : Screen :=
  let s : Screen := {
    columns := columns, lines := lines,
    savepoints := [], buffer := [], dirty := [],
    mode := [], margins := { top := 0, bottom := 0 },
    title := "", icon_name := "", charset := 0,
    g0_charset := CharsetTable.lat1, g1_charset := CharsetTable.vt100,
    tabstops := [], cursor := { x := 0, y := 0 },
    history := { top := { maxlen := history / 2, items := [] },
                 bottom := { maxlen := history, items := [] },
                 ratio_q := ratio_q, size := history, position := history },
    input_log := [] }
  let s := reset s
  { s with tabstops := rangeStep8 8 columns }

/-- `PyteTerminalEmulator.__init__`: doubles the history budget and attaches
a fresh byte stream. -/
def initEmulator (cols lines history : Int) (ratio_q : Rat) : Emulator :=
  { screen := initScreen cols lines (history * 2) ratio_q,
    pmode := PMode.ground,
    modified := true }

/-- `PyteTerminalEmulator.feed`. -/
def emFeed (M : CharMetrics) (bytes : List Nat) (em : Emulator) : Except String Emulator :=
  match scroll_to_bottom em.screen with
  | .error e => .error e
  | .ok s =>
      match decodeAscii bytes with
      | none => .error "beyond model: non-ASCII byte input"
      | some cs =>
          match feedChars M cs em.pmode s with
          | .error e => .error e
          | .ok (pm, s1) => .ok { screen := s1, pmode := pm, modified := true }

/-- `PyteTerminalEmulator.resize`. -/
def emResize (lines cols : Int) (em : Emulator) : Except String Emulator :=
  match scroll_to_bottom em.screen with
  | .error e => .error e
  | .ok s =>
      let s := { s with dirty := setUpdate s.dirty (rangeAsc 0 (max lines s.lines)) }
      match resize (some lines) (some cols) s with
      | .error e => .error e
      | .ok s1 => .ok { em with screen := s1, modified := true }

/-- `PyteTerminalEmulator.prev_page`. -/
def emPrevPage (em : Emulator) : Except String Emulator :=
  match prev_page em.screen with
  | .error e => .error e
  | .ok s =>
      match ensure_screen_width s with
      | .error e => .error e
      | .ok s1 => .ok { em with screen := s1, modified := true }

/-- `PyteTerminalEmulator.next_page`. -/
def emNextPage (em : Emulator) : Except String Emulator :=
  match next_page em.screen with
  | .error e => .error e
  | .ok s =>
      match ensure_screen_width s with
      | .error e => .error e
      | .ok s1 => .ok { em with screen := s1, modified := true }

/-- The body of the `Screen.display` row renderer: walk the columns,
skipping the stub cell that follows a wide character, yielding each cell's
data. -/
def renderGo (M : CharMetrics) (line : Line) : List Int → Bool → String
  | [], _ => ""
  | x :: xs, wide =>
      if wide then renderGo M line xs false
      else
        let chs := (cellAt line x).data
        let isWide := decide (M.wcw (chs.toList.headD ' ') = 2)
        chs ++ renderGo M line xs isWide

/-- `Screen.display`: the screen rendered as `lines` strings.  (The source
reads rows through the defaultdict, which also inserts empty rows; that
insertion never changes any rendered content and is omitted here.) -/
def display (M : CharMetrics) (s : Screen) : List String :=
  (rangeAsc 0 s.lines).map
    (fun y => renderGo M ((alGet s.buffer y).getD []) (rangeAsc 0 s.columns) false)

/-- The loop of `PyteTerminalEmulator.dirty_lines` (the module actually
imported by `sublime_terminal_buffer`): iterating the dirty set in
increasing order, a row at or beyond the display height `break`s out,
dropping it and everything after it. -/
def dirtyLinesGo (disp : List String) : List Int → List (Int × String)
  | [] => []
  | r :: rest =>
      if r ≥ Int.ofNat disp.length then []
      else (r, disp.getD r.toNat "") :: dirtyLinesGo disp rest

/-- `PyteTerminalEmulator.dirty_lines` as an association list in iteration
order (CPython iterates this set of small non-negative ints ascending, the
order the model's sorted dirty list fixes). -/
def emDirtyLines (M : CharMetrics) (em : Emulator) : List (Int × String) :=
  if em.screen.dirty.length > 0 then dirtyLinesGo (display M em.screen) em.screen.dirty
  else []

/-- `PyteTerminalEmulator.cursor`. -/
def emCursor (em : Emulator) : Int × Int :=
  (em.screen.cursor.y, em.screen.cursor.x)

/-- `linux_pty._LINUX_KEY_MAP`. -/
def linuxKeyMap (key : String) : Option String :=
  if key = "enter" then some "\x0d" else if key = "backspace" then some "\x7f"
  else if key = "tab" then some "\x09" else if key = "space" then some " "
  else if key = "escape" then some "\x1b"
  else if key = "down" then some "\x1b[B" else if key = "up" then some "\x1b[A"
  else if key = "right" then some "\x1b[C" else if key = "left" then some "\x1b[D"
  else if key = "home" then some "\x1b[1~" else if key = "end" then some "\x1b[4~"
  else if key = "pageup" then some "\x1b[5~" else if key = "pagedown" then some "\x1b[6~"
  else if key = "delete" then some "\x1b[3~" else if key = "insert" then some "\x1b[2~"
  else if key = "f1" then some "\x1bOP" else if key = "f2" then some "\x1bOQ"
  else if key = "f3" then some "\x1bOR" else if key = "f4" then some "\x1bOS"
  else if key = "f5" then some "\x1b[15~" else if key = "f6" then some "\x1b[17~"
  else if key = "f7" then some "\x1b[18~" else if key = "f8" then some "\x1b[19~"
  else if key = "f9" then some "\x1b[20~" else if key = "f10" then some "\x1b[21~"
  else if key = "f12" then some "\x1b[24~" else none

/-- `linux_pty._LINUX_CTRL_KEY_MAP`. -/
def linuxCtrlKeyMap (key : String) : Option String :=
  if key = "up" then some "\x1b[1;5A" else if key = "down" then some "\x1b[1;5B"
  else if key = "right" then some "\x1b[1;5C" else if key = "left" then some "\x1b[1;5D"
  else if key = "@" then some "\x00" else if key = "`" then some "\x00"
  else if key = "[" then some "\x1b" else if key = "\x7b" then some "\x1b"
  else if key = "\\" then some "\x1c" else if key = "|" then some "\x1c"
  else if key = "]" then some "\x1d" else if key = "\x7d" then some "\x1d"
  else if key = "^" then some "\x1e" else if key = "~" then some "\x1e"
  else if key = "_" then some "\x1f" else if key = "?" then some "\x7f"
  else none

/-- `linux_pty._LINUX_ALT_KEY_MAP`. -/
def linuxAltKeyMap (key : String) : Option String :=
  if key = "up" then some "\x1b[1;3A" else if key = "down" then some "\x1b[1;3B"
  else if key = "right" then some "\x1b[1;3C" else if key = "left" then some "\x1b[1;3D"
  else none

/-- Python `str.lower()` on the ASCII range. -/
def pyLower (s : String) : String :=
  String.mk (s.toList.map Char.toLower)

/-- `LinuxPty._get_key_code`. -/
def get_key_code (key : String) : String :=
  (linuxKeyMap key).getD key

/-- `LinuxPty._get_ctrl_combination_key_code`. -/
def get_ctrl_combination_key_code (key : String) : String :=
  let key := pyLower key
  match linuxCtrlKeyMap key with
  | some v => v
  | none =>
      if key.length = 1 then
        let u := (key.toList.headD ' ').toNat
        if 97 ≤ u ∧ u ≤ 122 then String.mk [Char.ofNat (u - 96)]
        else get_key_code key
      else get_key_code key

/-- `LinuxPty._get_alt_combination_key_code`. -/
def get_alt_combination_key_code (key : String) : String :=
  let key := pyLower key
  match linuxAltKeyMap key with
  | some v => v
  | none => "\x1b" ++ get_key_code key

/-- The byte sequence `LinuxPty.send_keypress` writes for a key event.  The
method's signature is `(key, ctrl, alt, shift, meta)`: it has no application
cursor mode input at all (the callers in `TerminalView.py` pass a sixth
`app_mode` argument, which raises `TypeError`). -/
def send_keypress_code (key : String) (ctrl : Bool) (alt : Bool) : String :=
  if ctrl then get_ctrl_combination_key_code key
  else if alt then get_alt_combination_key_code key
  else get_key_code key

/-- Byte encoding of an ASCII string fed to the emulator. -/
def strBytes (s : String) : List Nat :=
  s.toList.map Char.toNat

/-- A freshly constructed emulator with the plugin's default geometry
(`SublimeTerminalBuffer` constructs `PyteTerminalEmulator(80, 24, hist,
ratio)`; the history setting 20 and scroll ratio 0.5 are arbitrary here). -/
def em80 : Emulator := initEmulator 80 24 20 (1/2 : Rat)

/-- Eleven lines of distinct content, each terminated CR LF — enough to
scroll a 10-line screen and push a line into `history.top` (the claimed
scenario feeds 25 such lines; the guard state is the same either way). -/
def c4Input : String :=
  String.join ((List.range 11).map (fun i => "line" ++ toString i ++ "\x0d\x0a"))

/-- The history-pagination scenario: distinct lines fed into a screen of
10 lines with history 20 and ratio 0.5. -/
def c4Feed : Except String Emulator :=
  emFeed asciiMetrics (strBytes c4Input) (initEmulator 10 10 20 (1/2 : Rat))

/-- The screen reached by the pagination scenario. -/
def c4Screen : Screen :=
  match c4Feed with
  | .ok em => em.screen
  | .error _ => em80.screen

/-- A screen state whose dirty set contains a row left over after a shrink
(row 30 on a 24-line screen). -/
def c5Em : Emulator :=
  { em80 with screen := { em80.screen with dirty := [0, 30] } }

/-- Position the cursor at row 10, column 5, then request a cursor report. -/
def c6Probe : String := "\x1b[10;5H\x1b[6n"

/-- The public screen operations quantified over by the cursor-bounds
invariant: reset, resize, draw, the cursor motions, line/character editing,
index/reverse_index, save/restore cursor, margins and mode changes. -/
inductive SOp where
  | resetOp
  | resizeOp (lines cols : Option Int)
  | drawOp (data : List Char)
  | cursorUpOp (n : Option Int)
  | cursorDownOp (n : Option Int)
  | cursorUp1Op (n : Option Int)
  | cursorDown1Op (n : Option Int)
  | cursorForwardOp (n : Option Int)
  | cursorBackOp (n : Option Int)
  | cursorPositionOp (line col : Option Int)
  | cursorToColumnOp (c : Option Int)
  | cursorToLineOp (l : Option Int)
  | insertLinesOp (n : Option Int)
  | deleteLinesOp (n : Option Int)
  | insertCharactersOp (n : Option Int)
  | deleteCharactersOp (n : Option Int)
  | eraseCharactersOp (n : Option Int)
  | eraseInLineOp (how : Int) (priv : Bool)
  | eraseInDisplayOp (how : Int) (priv : Bool)
  | indexOp
  | reverseIndexOp
  | saveCursorOp
  | restoreCursorOp
  | setMarginsOp (t b : Option Int)
  | setModeOp (ms : List Int) (priv : Bool)
  | resetModeOp (ms : List Int) (priv : Bool)

/-- Apply a public screen operation (resolving, as the program does, to the
`CustomHistoryScreen` overrides of reset / resize / index / reverse_index /
erase_in_display). -/
def applySOp (M : CharMetrics) : SOp → Screen → PyResult
  | .resetOp, s => .ok (reset s)
  | .resizeOp l c, s => resize l c s
  | .drawOp d, s => .ok (draw M d s)
  | .cursorUpOp n, s => .ok (cursor_up n s)
  | .cursorDownOp n, s => .ok (cursor_down n s)
  | .cursorUp1Op n, s => .ok (cursor_up1 n s)
  | .cursorDown1Op n, s => .ok (cursor_down1 n s)
  | .cursorForwardOp n, s => .ok (cursor_forward n s)
  | .cursorBackOp n, s => .ok (cursor_back n s)
  | .cursorPositionOp l c, s => .ok (cursor_position l c s)
  | .cursorToColumnOp c, s => .ok (cursor_to_column c s)
  | .cursorToLineOp l, s => .ok (cursor_to_line l s)
  | .insertLinesOp n, s => .ok (insert_lines n s)
  | .deleteLinesOp n, s => .ok (delete_lines n s)
  | .insertCharactersOp n, s => .ok (insert_characters n s)
  | .deleteCharactersOp n, s => .ok (delete_characters n s)
  | .eraseCharactersOp n, s => .ok (erase_characters n s)
  | .eraseInLineOp how priv, s => erase_in_line how priv s
  | .eraseInDisplayOp how priv, s => erase_in_display how priv s
  | .indexOp, s => .ok (index s)
  | .reverseIndexOp, s => .ok (reverse_index s)
  | .saveCursorOp, s => .ok (save_cursor s)
  | .restoreCursorOp, s => restore_cursor s
  | .setMarginsOp t b, s => .ok (set_margins t b s)
  | .setModeOp ms priv, s => set_mode ms priv s
  | .resetModeOp ms priv, s => reset_mode ms priv s

/-- The screen well-formedness invariant: positive dimensions, the cursor
inside the claimed bounds, and the margins inside the screen. -/
def Inv (s : Screen) : Prop :=
  1 ≤ s.columns ∧ 1 ≤ s.lines ∧
  0 ≤ s.cursor.y ∧ s.cursor.y < s.lines ∧
  0 ≤ s.cursor.x ∧ s.cursor.x ≤ s.columns ∧
  0 ≤ s.margins.top ∧ s.margins.top ≤ s.margins.bottom ∧ s.margins.bottom < s.lines

/-- The screen sits at the bottom of its history. -/
def AtBottom (s : Screen) : Prop :=
  s.history.position = s.history.size

/-- Emulator states reachable from a fresh construction through successful
public operations. -/
inductive Reach (M : CharMetrics) : Emulator → Prop where
  | init (cols lines hist : Int) (q : Rat) : Reach M (initEmulator cols lines hist q)
  | feedStep {em em' : Emulator} (bs : List Nat) :
      Reach M em → emFeed M bs em = Except.ok em' → Reach M em'
  | resizeStep {em em' : Emulator} (l c : Int) :
      Reach M em → emResize l c em = Except.ok em' → Reach M em'
  | prevStep {em em' : Emulator} :
      Reach M em → emPrevPage em = Except.ok em' → Reach M em'
  | nextStep {em em' : Emulator} :
      Reach M em → emNextPage em = Except.ok em' → Reach M em'

/-- Argument sanity for the cursor-motion counts: the stream only ever
dispatches nonnegative CSI parameters (digit strings clamped to 9999), so
the up/down counts passed to the screen are never negative. -/
def SOpArgsOK : SOp → Prop
  | .cursorUpOp n => 0 ≤ n.getD 1
  | .cursorDownOp n => 0 ≤ n.getD 1
  | .cursorUp1Op n => 0 ≤ n.getD 1
  | .cursorDown1Op n => 0 ≤ n.getD 1
  | _ => True

/-- Cursor state right after the wrap/adjust preamble of the `Screen.draw`
character loop: like `Inv`, except the column may transiently be -1 (a
2-cell character overwriting the right margin of a 1-column screen) and is
nonnegative whenever the character is not a spacing one. -/
def PrepInv (M : CharMetrics) (c : Char) (t : Screen) : Prop :=
  1 ≤ t.columns ∧ 1 ≤ t.lines ∧
  0 ≤ t.cursor.y ∧ t.cursor.y < t.lines ∧
  -1 ≤ t.cursor.x ∧ t.cursor.x ≤ t.columns ∧
  0 ≤ t.margins.top ∧ t.margins.top ≤ t.margins.bottom ∧ t.margins.bottom < t.lines ∧
  (M.wcw c ≤ 0 → 0 ≤ t.cursor.x)

set_option maxRecDepth 100000
set_option maxHeartbeats 1600000

/-- C1: the claim that `PyteTerminalEmulator.feed` never raises fails on the
code: feeding the recognized sequence `CSI ? 3 h` (DECCOLM) reaches
`CustomHistoryScreen.resize`, which raises `AttributeError` (the pyte-0.5
list-buffer code runs against the pyte-0.7 dict buffer and the missing
`ensure_bounds`/`default_line` attributes); feeding `CSI 9 J` raises
`NameError` in `Screen.erase_in_display` (no branch assigns `interval`). -/
theorem C1_deccolm_feed_raises :
    emFeed asciiMetrics (strBytes "\x1b[?3h") em80 =
      Except.error "AttributeError: default_line / row.extend" ∧
    emFeed asciiMetrics (strBytes "\x1b[9J") em80 =
      Except.error "NameError: interval" := by
  decide

/-- C3: feeding b"abcdefg" into a freshly constructed 5x2 screen (DECAWM is
set by reset) renders row 0 as "abcde" and row 1 as "fg   ", leaves the
cursor at (y=1, x=2), and leaves the dirty set {0, 1}. -/
theorem C3_autowrap_scenario :
    hasMode (initEmulator 5 2 20 (1/2 : Rat)).screen DECAWM = true ∧
    (emFeed asciiMetrics (strBytes "abcdefg") (initEmulator 5 2 20 (1/2 : Rat))).map
      (fun em => (display asciiMetrics em.screen, emCursor em, em.screen.dirty)) =
      Except.ok (["abcde", "fg   "], ((1 : Int), (2 : Int)), [0, 1]) := by
  decide

/-- C4: on every screen whose `prev_page` guard holds (`position > lines`
and a non-empty top queue — the state reached by feeding 25 distinct lines
into the `lines=10, history=20, ratio=0.5` emulator), `prev_page` raises
`TypeError` slicing the dict buffer instead of restoring history lines into
the visible buffer — the claimed pagination never happens. -/
theorem C4_prev_page_raises (s : Screen)
    (hpos : s.history.position > s.lines) (htop : s.history.top.items ≠ []) :
    prev_page s = Except.error "TypeError: unhashable slice key in buffer[-mid:]" := by
  unfold prev_page
  simp [hpos, htop]

/-- C4 witness: the emulator fed with scrolling content satisfies the guard
and its `prev_page` raises. -/
theorem C4_prev_page_raises_witness :
    c4Screen.history.position > c4Screen.lines ∧
    c4Screen.history.top.items ≠ [] ∧
    prev_page c4Screen = Except.error "TypeError: unhashable slice key in buffer[-mid:]" :=
  ⟨by decide, by decide, C4_prev_page_raises c4Screen (by decide) (by decide)⟩

/-- C5 counterexample: a screen state with a non-empty dirty set containing
row 30 (beyond the 24-line display); `dirty_lines()` returns no entry for
it at all — neither a rendered string nor a delete-this-row sentinel. -/
theorem C5_dirty_sentinel_counterexample :
    c5Em.screen.dirty ≠ [] ∧
    (30 : Int) ∈ c5Em.screen.dirty ∧
    (30 : Int) ≥ Int.ofNat (display asciiMetrics c5Em.screen).length ∧
    (emDirtyLines asciiMetrics c5Em).find? (fun p => p.fst == 30) = none := by
  decide

/-- C6 counterexample: the cursor-position report after `CSI 10;5 H` +
`CSI 6 n` is `"\x9b" ++ "10;5R"` (the repository's `control.CSI` is the
single C1 byte 0x9B), not the claimed 7-bit `ESC [ 10;5 R`. -/
theorem C6_reply_bytes_counterexample :
    (emFeed asciiMetrics (strBytes c6Probe) em80).map (fun em => em.screen.input_log) =
      Except.ok ["\x9b10;5R"] ∧
    ("\x9b10;5R" : String) ≠ "\x1b[10;5R" := by
  decide

theorem rangeAsc_length (a b : Int) : (rangeAsc a b).length = (b - a).toNat := by
  unfold rangeAsc
  rw [List.length_map, List.length_range]

theorem display_length (M : CharMetrics) (s : Screen) :
    (display M s).length = s.lines.toNat := by
  simp [display, rangeAsc_length]

theorem dirtyLinesGo_eq_filter (disp : List String) (l : List Int)
    (hs : List.Sorted (· < ·) l) :
    dirtyLinesGo disp l =
      (l.filter (fun r => decide (r < Int.ofNat disp.length))).map
        (fun r => (r, disp.getD r.toNat "")) := by
  induction l with
  | nil => rfl
  | cons r rest ih =>
      rw [List.sorted_cons] at hs
      obtain ⟨hall, hrest⟩ := hs
      by_cases h : r ≥ Int.ofNat disp.length
      · have hcast : ((disp.length : Nat) : Int) ≤ r := by exact_mod_cast h
        have h2 : ∀ x ∈ (r :: rest), ¬ ((fun q => decide (q < Int.ofNat disp.length)) x = true) := by
          intro x hx
          simp only [List.mem_cons] at hx
          simp only [decide_eq_true_eq, not_lt]
          rcases hx with hx | hx
          · subst hx; exact_mod_cast hcast
          · have hrx := hall x hx
            have hle : ((disp.length : Nat) : Int) ≤ x := by omega
            exact_mod_cast hle
        rw [List.filter_eq_nil_iff.mpr h2]
        simp only [dirtyLinesGo, List.map_nil]
        rw [if_pos h]
      · have h1 : r < Int.ofNat disp.length := by omega
        simp only [dirtyLinesGo, List.filter_cons]
        rw [ih hrest, if_neg (not_le.mpr h1), if_pos (decide_eq_true h1)]
        simp

/-- C5 amended: `dirty_lines()` returns exactly the dirty rows below the
display height, each mapped to its rendered display row; dirty rows at or
beyond the height are omitted (the loop `break`s at the first such row --
the dirty set of small non-negative ints iterates in increasing order). -/
theorem C5_dirty_lines_amended (M : CharMetrics) (em : Emulator)
    (hlines : 0 ≤ em.screen.lines)
    (hs : List.Sorted (· < ·) em.screen.dirty) :
    emDirtyLines M em =
      (em.screen.dirty.filter (fun r => decide (r < em.screen.lines))).map
        (fun r => (r, (display M em.screen).getD r.toNat "")) := by
  have hlen : Int.ofNat (display M em.screen).length = em.screen.lines := by
    rw [display_length]
    exact Int.toNat_of_nonneg hlines
  unfold emDirtyLines
  by_cases hd : em.screen.dirty = []
  · simp [hd]
  · have hpos : em.screen.dirty.length > 0 := List.length_pos.mpr hd
    simp only [hpos, if_pos]
    rw [dirtyLinesGo_eq_filter _ _ hs, hlen]

/-- C5 witness: the amended statement at the concrete shrunken state. -/
theorem C5_dirty_lines_amended_witness :
    List.Sorted (· < ·) c5Em.screen.dirty ∧
    emDirtyLines asciiMetrics c5Em =
      (c5Em.screen.dirty.filter (fun r => decide (r < c5Em.screen.lines))).map
        (fun r => (r, (display asciiMetrics c5Em.screen).getD r.toNat "")) :=
  ⟨by decide, C5_dirty_lines_amended asciiMetrics c5Em (by decide) (by decide)⟩

/-- C6 amended: `report_device_status(6)` writes exactly
`"\x9b" ++ y ++ ";" ++ x ++ "R"` with 1-based coordinates and y made
relative to the top margin under DECOM; the concrete probe yields
`"\x9b10;5R"`, and with margins (3,20) and DECOM set the same probe still
yields `"\x9b10;5R"` (CUP interprets its row origin-relative, so the offset
cancels in the report — not the claimed `8;5`). -/
theorem C6_reply_bytes_amended :
    (∀ s : Screen, (report_device_status 6 s).input_log = s.input_log ++
        [ctrlCSI ++ toString (if hasMode s DECOM then s.cursor.y + 1 - s.margins.top
                              else s.cursor.y + 1) ++ ";" ++ toString (s.cursor.x + 1) ++ "R"]) ∧
    (emFeed asciiMetrics (strBytes c6Probe) em80).map (fun em => em.screen.input_log) =
      Except.ok [ctrlCSI ++ "10;5R"] ∧
    (emFeed asciiMetrics (strBytes ("\x1b[3;20r\x1b[?6h" ++ c6Probe)) em80).map
      (fun em => em.screen.input_log) = Except.ok [ctrlCSI ++ "10;5R"] := by
  refine ⟨fun s => ?_, by decide, by decide⟩
  unfold report_device_status write_process_input
  norm_num

/-- C7: feeding `ESC ( c` (and `ESC ) c`) leaves the screen completely
unchanged for every final character c — the stream dispatches the event
name `"set_charset"`, which no screen class defines, so the dispatch is
swallowed — while the intended handler `define_charset` (dead code) would
have installed the VT100 map for code "0" into G0. -/
theorem C7_define_charset_unreachable :
    (∀ c : Char,
      feedChars asciiMetrics ['\x1b', '(', c] PMode.ground em80.screen =
        Except.ok (PMode.ground, em80.screen) ∧
      feedChars asciiMetrics ['\x1b', ')', c] PMode.ground em80.screen =
        Except.ok (PMode.ground, em80.screen)) ∧
    (define_charset '0' '(' em80.screen).g0_charset = CharsetTable.vt100 ∧
    em80.screen.g0_charset = CharsetTable.lat1 := by
  refine ⟨fun c => ⟨rfl, rfl⟩, by decide, by decide⟩

/-- C8: the key encoder maps (a, ctrl) to 0x01, (left, ctrl) to
`ESC [1;5D`, f5 to `ESC [15~` — and "up" to `ESC [ A` unconditionally:
`send_keypress` has no application-cursor-mode input (its signature is
`(key, ctrl, alt, shift, meta)`), so the claimed `ESC O A` encoding does
not exist in the encoder. -/
theorem C8_key_encoder_codes :
    send_keypress_code "a" true false = "\x01" ∧
    send_keypress_code "left" true false = "\x1b[1;5D" ∧
    send_keypress_code "f5" false false = "\x1b[15~" ∧
    send_keypress_code "up" false false = "\x1b[A" := by
  decide

theorem atb_cursor_up (n : Option Int) (s : Screen) (h : AtBottom s) :
    AtBottom (cursor_up n s) := h

theorem atb_cursor_down (n : Option Int) (s : Screen) (h : AtBottom s) :
    AtBottom (cursor_down n s) := h

theorem atb_carriage_return (s : Screen) (h : AtBottom s) :
    AtBottom (carriage_return s) := h

theorem atb_cursor_up1 (n : Option Int) (s : Screen) (h : AtBottom s) :
    AtBottom (cursor_up1 n s) := h

theorem atb_cursor_down1 (n : Option Int) (s : Screen) (h : AtBottom s) :
    AtBottom (cursor_down1 n s) := h

theorem atb_cursor_forward (n : Option Int) (s : Screen) (h : AtBottom s) :
    AtBottom (cursor_forward n s) := h

theorem atb_cursor_back (n : Option Int) (s : Screen) (h : AtBottom s) :
    AtBottom (cursor_back n s) := by
  unfold cursor_back
  dsimp only
  split <;> exact h

theorem atb_backspace (s : Screen) (h : AtBottom s) : AtBottom (backspace s) :=
  atb_cursor_back none s h

theorem atb_cursor_position (l c : Option Int) (s : Screen) (h : AtBottom s) :
    AtBottom (cursor_position l c s) := by
  unfold cursor_position
  dsimp only
  split
  · split <;> exact h
  · exact h

theorem atb_cursor_to_column (c : Option Int) (s : Screen) (h : AtBottom s) :
    AtBottom (cursor_to_column c s) := h

theorem atb_cursor_to_line (l : Option Int) (s : Screen) (h : AtBottom s) :
    AtBottom (cursor_to_line l s) := h

theorem atb_tab (s : Screen) (h : AtBottom s) : AtBottom (tab s) := h

theorem atb_set_tab_stop (s : Screen) (h : AtBottom s) : AtBottom (set_tab_stop s) := h

theorem atb_clear_tab_stop (n : Option Int) (s : Screen) (h : AtBottom s) :
    AtBottom (clear_tab_stop n s) := by
  unfold clear_tab_stop
  dsimp only
  split
  · exact h
  · split <;> exact h

theorem atb_shift_in (s : Screen) (h : AtBottom s) : AtBottom (shift_in s) := h

theorem atb_shift_out (s : Screen) (h : AtBottom s) : AtBottom (shift_out s) := h

theorem atb_save_cursor (s : Screen) (h : AtBottom s) : AtBottom (save_cursor s) := h

theorem atb_insert_lines (n : Option Int) (s : Screen) (h : AtBottom s) :
    AtBottom (insert_lines n s) := by
  unfold insert_lines
  dsimp only
  split <;> exact h

theorem atb_delete_lines (n : Option Int) (s : Screen) (h : AtBottom s) :
    AtBottom (delete_lines n s) := by
  unfold delete_lines
  dsimp only
  split <;> exact h

theorem atb_insert_characters (n : Option Int) (s : Screen) (h : AtBottom s) :
    AtBottom (insert_characters n s) := h

theorem atb_delete_characters (n : Option Int) (s : Screen) (h : AtBottom s) :
    AtBottom (delete_characters n s) := h

theorem atb_erase_characters (n : Option Int) (s : Screen) (h : AtBottom s) :
    AtBottom (erase_characters n s) := h

theorem atb_alignment_display (s : Screen) (h : AtBottom s) :
    AtBottom (alignment_display s) := h

theorem atb_set_margins (t b : Option Int) (s : Screen) (h : AtBottom s) :
    AtBottom (set_margins t b s) := by
  unfold set_margins
  dsimp only
  rcases t with _ | t0
  · exact h
  · rcases b with _ | b0
    · exact h
    · dsimp only
      split
      · exact atb_cursor_position _ _ _ h
      · exact h

theorem atb_index (s : Screen) (h : AtBottom s) : AtBottom (index s) := by
  unfold index
  dsimp only
  (repeat' split) <;> exact h

theorem atb_reverse_index (s : Screen) (h : AtBottom s) : AtBottom (reverse_index s) := by
  unfold reverse_index
  dsimp only
  (repeat' split) <;> exact h

theorem atb_linefeed (s : Screen) (h : AtBottom s) : AtBottom (linefeed s) := by
  show AtBottom (if hasMode (index s) LNM = true then carriage_return (index s) else index s)
  split <;> exact atb_index s h

theorem atb_handleBasic (c : Char) (s : Screen) (h : AtBottom s) :
    AtBottom (handleBasic c s) := by
  unfold handleBasic
  (repeat' split) <;>
    first
      | exact h
      | exact atb_backspace s h
      | exact atb_linefeed s h

theorem atb_reset (s : Screen) : AtBottom (reset s) := rfl

theorem atb_write_process_input (d : String) (s : Screen) (h : AtBottom s) :
    AtBottom (write_process_input d s) := h

theorem atb_report_device_attributes (m : Option Int) (s : Screen) (h : AtBottom s) :
    AtBottom (report_device_attributes m s) := by
  unfold report_device_attributes
  split <;> exact h

theorem atb_report_device_status (m : Int) (s : Screen) (h : AtBottom s) :
    AtBottom (report_device_status m s) := by
  unfold report_device_status
  dsimp only
  split
  · exact h
  · split <;> exact h

theorem atb_drawPrep (M : CharMetrics) (c : Char) (s : Screen) (h : AtBottom s) :
    AtBottom (drawPrep M c s) := by
  unfold drawPrep
  dsimp only
  (repeat' split) <;> first | exact h | exact atb_linefeed _ h

theorem atb_drawGo (M : CharMetrics) (data : List Char) (s : Screen) (h : AtBottom s) :
    AtBottom (drawGo M data s) := by
  induction data generalizing s with
  | nil => exact h
  | cons c cs ih =>
      unfold drawGo
      dsimp only
      have hp : AtBottom (drawPrep M c s) := atb_drawPrep M c s h
      (repeat' split) <;> first | exact ih _ hp | exact hp

theorem resize_not_ok (l c : Option Int) (s t : Screen) : resize l c s ≠ Except.ok t := by
  unfold resize
  dsimp only
  (repeat' split) <;> simp

theorem atb_erase_in_line (how : Int) (priv : Bool) (s t : Screen)
    (h : AtBottom s) (he : erase_in_line how priv s = Except.ok t) : AtBottom t := by
  unfold erase_in_line at he
  dsimp only at he
  split at he
  · exact absurd he (by simp)
  · injection he with he
    subst he
    exact h

theorem atb_erase_in_display_base (how : Int) (priv : Bool) (s t : Screen)
    (h : AtBottom s) (he : erase_in_display_base how priv s = Except.ok t) : AtBottom t := by
  unfold erase_in_display_base at he
  dsimp only at he
  split at he
  · refine atb_erase_in_line _ _ _ _ ?_ he
    exact h
  · split at he
    · refine atb_erase_in_line _ _ _ _ ?_ he
      exact h
    · split at he
      · injection he with he
        subst he
        exact h
      · exact absurd he (by simp)

theorem pyBind_ok {r : PyResult} {k : Screen → PyResult} {t : Screen}
    (h : pyBind r k = Except.ok t) :
    ∃ s1, r = Except.ok s1 ∧ k s1 = Except.ok t := by
  cases r with
  | error e => exact absurd h (by simp [pyBind])
  | ok s1 => exact ⟨s1, rfl, h⟩

theorem atb_erase_in_display (how : Int) (priv : Bool) (s t : Screen)
    (h : AtBottom s) (he : erase_in_display how priv s = Except.ok t) : AtBottom t := by
  unfold erase_in_display at he
  obtain ⟨s1, hbase, hk⟩ := pyBind_ok he
  dsimp only at hk
  injection hk with hk
  subst hk
  split
  · rfl
  · exact atb_erase_in_display_base _ _ _ _ h hbase

theorem atb_select_graphic_rendition (attrs : List Int) (s t : Screen)
    (h : AtBottom s) (he : select_graphic_rendition attrs s = Except.ok t) : AtBottom t := by
  unfold select_graphic_rendition at he
  split at he
  · injection he with he
    subst he
    exact h
  · split at he
    · exact absurd he (by simp)
    · injection he with he
      subst he
      exact h

theorem atb_set_mode (ms : List Int) (priv : Bool) (s t : Screen)
    (h : AtBottom s) (he : set_mode ms priv s = Except.ok t) : AtBottom t := by
  unfold set_mode at he
  dsimp only at he
  obtain ⟨s1, hr, hk⟩ := pyBind_ok he
  have h1 : AtBottom s1 := by
    (repeat' split at hr) <;>
      first
        | (obtain ⟨sr, hres, hrest⟩ := pyBind_ok hr
           exact absurd hres (resize_not_ok _ _ _ _))
        | (injection hr with hr; subst hr; exact h)
  try dsimp only at hk
  obtain ⟨s2, hsgr, hfin⟩ := pyBind_ok hk
  have h2 : AtBottom s2 := by
    (repeat' split at hsgr) <;>
      first
        | (refine atb_select_graphic_rendition _ _ _ ?_ hsgr
           (repeat' split) <;>
             first
               | exact atb_cursor_position _ _ _ h1
               | exact h1)
        | (injection hsgr with hsgr
           subst hsgr
           (repeat' split) <;>
             first
               | exact atb_cursor_position _ _ _ h1
               | exact h1)
  try dsimp only at hfin
  injection hfin with hfin
  subst hfin
  (repeat' split) <;> exact h2

theorem atb_reset_mode (ms : List Int) (priv : Bool) (s t : Screen)
    (h : AtBottom s) (he : reset_mode ms priv s = Except.ok t) : AtBottom t := by
  unfold reset_mode at he
  dsimp only at he
  obtain ⟨s1, hr, hk⟩ := pyBind_ok he
  have h1 : AtBottom s1 := by
    (repeat' split at hr) <;>
      first
        | (obtain ⟨sr, hres, hrest⟩ := pyBind_ok hr
           exact absurd hres (resize_not_ok _ _ _ _))
        | (injection hr with hr; subst hr; exact h)
  try dsimp only at hk
  obtain ⟨s2, hsgr, hfin⟩ := pyBind_ok hk
  have h2 : AtBottom s2 := by
    (repeat' split at hsgr) <;>
      first
        | (refine atb_select_graphic_rendition _ _ _ ?_ hsgr
           (repeat' split) <;>
             first
               | exact atb_cursor_position _ _ _ h1
               | exact h1)
        | (injection hsgr with hsgr
           subst hsgr
           (repeat' split) <;>
             first
               | exact atb_cursor_position _ _ _ h1
               | exact h1)
  try dsimp only at hfin
  injection hfin with hfin
  subst hfin
  (repeat' split) <;> exact h2

theorem atb_restore_cursor (s t : Screen)
    (h : AtBottom s) (he : restore_cursor s = Except.ok t) : AtBottom t := by
  unfold restore_cursor at he
  split at he
  · rename_i sp hsp
    obtain ⟨s1, hm1, hk⟩ := pyBind_ok he
    have h1 : AtBottom s1 := by
      by_cases ho : sp.origin = true
      · rw [if_pos ho] at hm1
        refine atb_set_mode _ _ _ _ ?_ hm1
        exact h
      · rw [if_neg ho] at hm1
        injection hm1 with hm1
        subst hm1
        exact h
    try dsimp only at hk
    obtain ⟨s2, hm2, hfin⟩ := pyBind_ok hk
    have h2 : AtBottom s2 := by
      by_cases hw : sp.wrap = true
      · rw [if_pos hw] at hm2
        exact atb_set_mode _ _ _ _ h1 hm2
      · rw [if_neg hw] at hm2
        injection hm2 with hm2
        subst hm2
        exact h1
    try dsimp only at hfin
    injection hfin with hfin
    subst hfin
    exact h2
  · obtain ⟨s1, hm1, hfin⟩ := pyBind_ok he
    try dsimp only at hfin
    injection hfin with hfin
    subst hfin
    exact atb_cursor_position _ _ _ (atb_reset_mode _ _ _ _ h hm1)

theorem exceptMap_ok {α β : Type} {f : α → β} {r : Except String α} {b : β}
    (h : Except.map f r = Except.ok b) : ∃ a, r = Except.ok a ∧ f a = b := by
  cases r with
  | error e => exact absurd h (by simp [Except.map])
  | ok a =>
      refine ⟨a, rfl, ?_⟩
      injection h

theorem atb_oneOpt_map {f : Option Int → Screen} {params : List Int} {t : Screen}
    (hf : ∀ n, AtBottom (f n)) (he : Except.map f (oneOpt params) = Except.ok t) :
    AtBottom t := by
  obtain ⟨a, _, hfa⟩ := exceptMap_ok he
  exact hfa ▸ hf a

theorem atb_handleCsi (cmd : CsiCmd) (params : List Int) (priv : Bool) (s t : Screen)
    (h : AtBottom s) (he : handleCsi cmd params priv s = Except.ok t) : AtBottom t := by
  cases cmd <;> simp only [handleCsi] at he <;>
    (repeat' split at he) <;>
    first
      | exact Except.noConfusion he
      | exact atb_set_mode _ _ _ _ h he
      | exact atb_reset_mode _ _ _ _ h he
      | exact atb_select_graphic_rendition _ _ _ h he
      | exact atb_erase_in_display _ _ _ _ h he
      | exact atb_erase_in_line _ _ _ _ h he
      | exact atb_oneOpt_map (fun n => atb_insert_characters n s h) he
      | exact atb_oneOpt_map (fun n => atb_cursor_up n s h) he
      | exact atb_oneOpt_map (fun n => atb_cursor_down n s h) he
      | exact atb_oneOpt_map (fun n => atb_cursor_forward n s h) he
      | exact atb_oneOpt_map (fun n => atb_cursor_back n s h) he
      | exact atb_oneOpt_map (fun n => atb_cursor_down1 n s h) he
      | exact atb_oneOpt_map (fun n => atb_cursor_up1 n s h) he
      | exact atb_oneOpt_map (fun n => atb_cursor_to_column n s h) he
      | exact atb_oneOpt_map (fun n => atb_cursor_to_line n s h) he
      | exact atb_oneOpt_map (fun n => atb_insert_lines n s h) he
      | exact atb_oneOpt_map (fun n => atb_delete_lines n s h) he
      | exact atb_oneOpt_map (fun n => atb_delete_characters n s h) he
      | exact atb_oneOpt_map (fun n => atb_erase_characters n s h) he
      | exact atb_oneOpt_map (fun n => atb_clear_tab_stop n s h) he
      | (injection he with he
         subst he
         first
           | exact h
           | exact atb_report_device_attributes _ _ h
           | exact atb_report_device_status _ _ h
           | exact atb_cursor_position _ _ _ h
           | exact atb_set_margins _ _ _ h)

theorem atb_handleEsc (c : Char) (s t : Screen)
    (h : AtBottom s) (he : handleEsc c s = Except.ok t) : AtBottom t := by
  unfold handleEsc at he
  (repeat' split at he) <;>
    first
      | exact atb_restore_cursor _ _ h he
      | (injection he with he
         subst he
         first
           | exact atb_reset s
           | exact atb_index s h
           | exact atb_linefeed s h
           | exact atb_reverse_index s h
           | exact atb_set_tab_stop s h
           | exact atb_save_cursor s h
           | exact h)

theorem atb_draw (M : CharMetrics) (data : List Char) (s : Screen) (h : AtBottom s) :
    AtBottom (draw M data s) := by
  unfold draw
  dsimp only
  exact atb_drawGo _ _ _ h

theorem atb_pstep (M : CharMetrics) (pm : PMode) (c : Char) (s : Screen)
    (pm1 : PMode) (s1 : Screen) (h : AtBottom s)
    (he : pstep M pm c s = Except.ok (pm1, s1)) : AtBottom s1 := by
  cases pm <;>
    (unfold pstep at he
     try dsimp only at he
     (repeat' split at he) <;>
       first
         | (obtain ⟨s2, hop, hpair⟩ := exceptMap_ok he
            injection hpair with hp hs
            subst hs
            first
              | exact atb_handleEsc _ _ _ h hop
              | exact atb_handleCsi _ _ _ _ _ h hop)
         | (injection he with he
            injection he with hp hs
            subst hs
            first
              | exact h
              | exact atb_handleBasic _ _ h
              | exact atb_draw _ _ _ h
              | exact atb_alignment_display _ h))

theorem atb_feedChars (M : CharMetrics) (cs : List Char) (pm : PMode) (s : Screen)
    (pm1 : PMode) (s1 : Screen) (h : AtBottom s)
    (he : feedChars M cs pm s = Except.ok (pm1, s1)) : AtBottom s1 := by
  induction cs generalizing pm s with
  | nil =>
      unfold feedChars at he
      injection he with he
      injection he with hp hs
      subst hs
      exact h
  | cons c cs2 ih =>
      unfold feedChars at he
      split at he
      · exact absurd he (by simp)
      · rename_i pm2 s2 hps
        exact ih pm2 s2 (atb_pstep M pm c s pm2 s2 h hps) he

theorem scroll_to_bottomAux_of_atBottom (fuel : Nat) (s : Screen) (h : AtBottom s) :
    scroll_to_bottomAux fuel s = Except.ok (some s) := by
  have h1 : s.history.position = s.history.size := h
  have hlt : ¬ s.history.position < s.history.size := by omega
  cases fuel with
  | zero =>
      unfold scroll_to_bottomAux
      rw [if_neg hlt]
  | succ n =>
      unfold scroll_to_bottomAux
      rw [if_neg hlt]

theorem scroll_to_bottom_of_atBottom (s : Screen) (h : AtBottom s) :
    scroll_to_bottom s = Except.ok s := by
  unfold scroll_to_bottom
  rw [scroll_to_bottomAux_of_atBottom _ s h]

theorem atb_prev_page (s t : Screen) (h : AtBottom s)
    (he : prev_page s = Except.ok t) : AtBottom t := by
  unfold prev_page at he
  dsimp only at he
  split at he
  · exact absurd he (by simp)
  · injection he with he
    subst he
    exact h

theorem atb_next_page (s t : Screen) (h : AtBottom s)
    (he : next_page s = Except.ok t) : AtBottom t := by
  unfold next_page at he
  dsimp only at he
  split at he
  · exact absurd he (by simp)
  · injection he with he
    subst he
    exact h

theorem atb_ensure_screen_width (s t : Screen) (h : AtBottom s)
    (he : ensure_screen_width s = Except.ok t) : AtBottom t := by
  unfold ensure_screen_width at he
  split at he
  · exact absurd he (by simp)
  · injection he with he
    subst he
    exact h

theorem reach_atBottom (M : CharMetrics) (em : Emulator) (hr : Reach M em) :
    AtBottom em.screen := by
  induction hr with
  | init cols lines hist q => exact rfl
  | feedStep bs hr2 hok ih =>
      unfold emFeed at hok
      rw [scroll_to_bottom_of_atBottom _ ih] at hok
      dsimp only at hok
      split at hok
      · exact absurd hok (by simp)
      · rename_i cs hdec
        split at hok
        · exact absurd hok (by simp)
        · rename_i pm2 s2 hfc
          injection hok with hok
          subst hok
          exact atb_feedChars M cs _ _ pm2 s2 ih hfc
  | resizeStep l c hr2 hok ih =>
      unfold emResize at hok
      rw [scroll_to_bottom_of_atBottom _ ih] at hok
      dsimp only at hok
      split at hok
      · exact absurd hok (by simp)
      · rename_i s2 hres
        exact absurd hres (resize_not_ok _ _ _ _)
  | prevStep hr2 hok ih =>
      unfold emPrevPage at hok
      split at hok
      · exact absurd hok (by simp)
      · rename_i s2 hpp
        split at hok
        · exact absurd hok (by simp)
        · rename_i s3 hesw
          injection hok with hok
          subst hok
          exact atb_ensure_screen_width _ _ (atb_prev_page _ _ ih hpp) hesw
  | nextStep hr2 hok ih =>
      unfold emNextPage at hok
      split at hok
      · exact absurd hok (by simp)
      · rename_i s2 hnp
        split at hok
        · exact absurd hok (by simp)
        · rename_i s3 hesw
          injection hok with hok
          subst hok
          exact atb_ensure_screen_width _ _ (atb_next_page _ _ ih hnp) hesw

/-- C10: on every emulator state reachable through the public operations
(feed, resize, prev_page, next_page), `scroll_to_bottom` terminates and
establishes `history.position = history.size`.  In fact every reachable
state already satisfies `position = size` — construction and `reset` set
it, `resize` never completes, and the pagination methods either raise or
leave the screen unchanged — so the `while` loop exits immediately and the
method returns the screen unchanged. -/
theorem C10_scroll_to_bottom_terminates (M : CharMetrics) (em : Emulator)
    (hr : Reach M em) :
    scroll_to_bottom em.screen = Except.ok em.screen ∧
    em.screen.history.position = em.screen.history.size := by
  have h := reach_atBottom M em hr
  exact ⟨scroll_to_bottom_of_atBottom _ h, h⟩

theorem C10_scroll_to_bottom_terminates_witness :
    scroll_to_bottom (initEmulator 80 24 20 (1/2)).screen =
      Except.ok (initEmulator 80 24 20 (1/2)).screen ∧
    (initEmulator 80 24 20 (1/2)).screen.history.position =
      (initEmulator 80 24 20 (1/2)).screen.history.size :=
  C10_scroll_to_bottom_terminates asciiMetrics (initEmulator 80 24 20 (1/2))
    (Reach.init 80 24 20 (1/2))

theorem orOne_pos (n : Option Int) (h : 0 ≤ n.getD 1) : 0 < orOne n := by
  cases n with
  | none => decide
  | some k =>
      simp only [Option.getD] at h
      simp only [orOne]
      split <;> omega

theorem inv_carriage_return (s : Screen) (h : Inv s) : Inv (carriage_return s) := by
  unfold Inv at h ⊢
  unfold carriage_return
  try dsimp only
  omega

theorem inv_cursor_up (n : Option Int) (s : Screen) (hn : 0 ≤ n.getD 1) (h : Inv s) :
    Inv (cursor_up n s) := by
  have hp := orOne_pos n hn
  unfold Inv at h ⊢
  unfold cursor_up
  try dsimp only
  omega

theorem inv_cursor_down (n : Option Int) (s : Screen) (hn : 0 ≤ n.getD 1) (h : Inv s) :
    Inv (cursor_down n s) := by
  have hp := orOne_pos n hn
  unfold Inv at h ⊢
  unfold cursor_down
  try dsimp only
  omega

theorem inv_cursor_up1 (n : Option Int) (s : Screen) (hn : 0 ≤ n.getD 1) (h : Inv s) :
    Inv (cursor_up1 n s) := by
  unfold cursor_up1
  exact inv_carriage_return _ (inv_cursor_up n s hn h)

theorem inv_cursor_down1 (n : Option Int) (s : Screen) (hn : 0 ≤ n.getD 1) (h : Inv s) :
    Inv (cursor_down1 n s) := by
  unfold cursor_down1
  exact inv_carriage_return _ (inv_cursor_down n s hn h)

theorem inv_cursor_forward (n : Option Int) (s : Screen) (h : Inv s) :
    Inv (cursor_forward n s) := by
  unfold Inv at h ⊢
  unfold cursor_forward ensure_hbounds
  try dsimp only
  omega

theorem inv_cursor_back (n : Option Int) (s : Screen) (h : Inv s) :
    Inv (cursor_back n s) := by
  unfold Inv at h ⊢
  unfold cursor_back ensure_hbounds
  try dsimp only
  (repeat' split) <;> (try dsimp only) <;> omega

theorem inv_cursor_position (l c : Option Int) (s : Screen) (h : Inv s) :
    Inv (cursor_position l c s) := by
  unfold Inv at h ⊢
  unfold cursor_position ensure_vbounds ensure_hbounds
  try dsimp only
  (repeat' split) <;> (try dsimp only) <;> omega

theorem inv_cursor_to_column (c : Option Int) (s : Screen) (h : Inv s) :
    Inv (cursor_to_column c s) := by
  unfold Inv at h ⊢
  unfold cursor_to_column ensure_hbounds
  try dsimp only
  omega

theorem inv_cursor_to_line (l : Option Int) (s : Screen) (h : Inv s) :
    Inv (cursor_to_line l s) := by
  unfold Inv at h ⊢
  unfold cursor_to_line ensure_vbounds
  try dsimp only
  (repeat' split) <;> (try dsimp only) <;> omega

theorem inv_index (s : Screen) (h : Inv s) : Inv (index s) := by
  unfold index
  try dsimp only
  (repeat' split) <;>
    first
      | exact h
      | exact inv_cursor_down none _ (by decide) h

theorem inv_reverse_index (s : Screen) (h : Inv s) : Inv (reverse_index s) := by
  unfold reverse_index
  try dsimp only
  (repeat' split) <;>
    first
      | exact h
      | exact inv_cursor_up none _ (by decide) h

theorem inv_linefeed (s : Screen) (h : Inv s) : Inv (linefeed s) := by
  unfold linefeed
  try dsimp only
  split
  · exact inv_carriage_return _ (inv_index s h)
  · exact inv_index s h

theorem inv_save_cursor (s : Screen) (h : Inv s) : Inv (save_cursor s) := h

theorem inv_insert_characters (n : Option Int) (s : Screen) (h : Inv s) :
    Inv (insert_characters n s) := h

theorem inv_delete_characters (n : Option Int) (s : Screen) (h : Inv s) :
    Inv (delete_characters n s) := h

theorem inv_erase_characters (n : Option Int) (s : Screen) (h : Inv s) :
    Inv (erase_characters n s) := h

theorem inv_insert_lines (n : Option Int) (s : Screen) (h : Inv s) :
    Inv (insert_lines n s) := by
  unfold insert_lines
  try dsimp only
  split
  · exact inv_carriage_return _ h
  · exact h

theorem inv_delete_lines (n : Option Int) (s : Screen) (h : Inv s) :
    Inv (delete_lines n s) := by
  unfold delete_lines
  try dsimp only
  split
  · exact inv_carriage_return _ h
  · exact h

theorem inv_set_margins (tm bm : Option Int) (s : Screen) (h : Inv s) :
    Inv (set_margins tm bm s) := by
  unfold set_margins
  split <;>
    first
      | (try dsimp only
         split
         · refine inv_cursor_position _ _ _ ?_
           unfold Inv at h ⊢
           try dsimp only
           omega
         · exact h)
      | (unfold Inv at h ⊢
         try dsimp only
         omega)

theorem inv_reset (s : Screen) (h : Inv s) : Inv (reset s) := by
  unfold Inv at h
  unfold reset
  try dsimp only
  refine inv_cursor_position _ _ _ ?_
  unfold Inv
  try dsimp only
  omega

theorem inv_select_graphic_rendition (attrs : List Int) (s t : Screen)
    (h : Inv s) (he : select_graphic_rendition attrs s = Except.ok t) : Inv t := by
  unfold select_graphic_rendition at he
  split at he
  · injection he with he
    subst he
    exact h
  · split at he
    · exact absurd he (by simp)
    · injection he with he
      subst he
      exact h

theorem inv_erase_in_line (how : Int) (priv : Bool) (s t : Screen)
    (h : Inv s) (he : erase_in_line how priv s = Except.ok t) : Inv t := by
  unfold erase_in_line at he
  dsimp only at he
  split at he
  · exact absurd he (by simp)
  · injection he with he
    subst he
    exact h

theorem inv_erase_in_display_base (how : Int) (priv : Bool) (s t : Screen)
    (h : Inv s) (he : erase_in_display_base how priv s = Except.ok t) : Inv t := by
  unfold erase_in_display_base at he
  dsimp only at he
  split at he
  · refine inv_erase_in_line _ _ _ _ ?_ he
    exact h
  · split at he
    · refine inv_erase_in_line _ _ _ _ ?_ he
      exact h
    · split at he
      · injection he with he
        subst he
        exact h
      · exact absurd he (by simp)

theorem inv_erase_in_display (how : Int) (priv : Bool) (s t : Screen)
    (h : Inv s) (he : erase_in_display how priv s = Except.ok t) : Inv t := by
  unfold erase_in_display at he
  obtain ⟨s1, hbase, hk⟩ := pyBind_ok he
  dsimp only at hk
  injection hk with hk
  subst hk
  have h1 := inv_erase_in_display_base _ _ _ _ h hbase
  split
  · exact h1
  · exact h1

theorem inv_set_mode (ms : List Int) (priv : Bool) (s t : Screen)
    (h : Inv s) (he : set_mode ms priv s = Except.ok t) : Inv t := by
  unfold set_mode at he
  dsimp only at he
  obtain ⟨s1, hr, hk⟩ := pyBind_ok he
  have h1 : Inv s1 := by
    (repeat' split at hr) <;>
      first
        | (obtain ⟨sr, hres, hrest⟩ := pyBind_ok hr
           exact absurd hres (resize_not_ok _ _ _ _))
        | (injection hr with hr; subst hr; exact h)
  try dsimp only at hk
  obtain ⟨s2, hsgr, hfin⟩ := pyBind_ok hk
  have h2 : Inv s2 := by
    (repeat' split at hsgr) <;>
      first
        | (refine inv_select_graphic_rendition _ _ _ ?_ hsgr
           (repeat' split) <;>
             first
               | exact inv_cursor_position _ _ _ h1
               | exact h1)
        | (injection hsgr with hsgr
           subst hsgr
           (repeat' split) <;>
             first
               | exact inv_cursor_position _ _ _ h1
               | exact h1)
  try dsimp only at hfin
  injection hfin with hfin
  subst hfin
  (repeat' split) <;> exact h2

theorem inv_reset_mode (ms : List Int) (priv : Bool) (s t : Screen)
    (h : Inv s) (he : reset_mode ms priv s = Except.ok t) : Inv t := by
  unfold reset_mode at he
  dsimp only at he
  obtain ⟨s1, hr, hk⟩ := pyBind_ok he
  have h1 : Inv s1 := by
    (repeat' split at hr) <;>
      first
        | (obtain ⟨sr, hres, hrest⟩ := pyBind_ok hr
           exact absurd hres (resize_not_ok _ _ _ _))
        | (injection hr with hr; subst hr; exact h)
  try dsimp only at hk
  obtain ⟨s2, hsgr, hfin⟩ := pyBind_ok hk
  have h2 : Inv s2 := by
    (repeat' split at hsgr) <;>
      first
        | (refine inv_select_graphic_rendition _ _ _ ?_ hsgr
           (repeat' split) <;>
             first
               | exact inv_cursor_position _ _ _ h1
               | exact h1)
        | (injection hsgr with hsgr
           subst hsgr
           (repeat' split) <;>
             first
               | exact inv_cursor_position _ _ _ h1
               | exact h1)
  try dsimp only at hfin
  injection hfin with hfin
  subst hfin
  (repeat' split) <;> exact h2

theorem inv_restore_cursor (s t : Screen)
    (h : Inv s) (he : restore_cursor s = Except.ok t) : Inv t := by
  unfold restore_cursor at he
  split at he
  · rename_i sp hsp
    obtain ⟨s1, hm1, hk⟩ := pyBind_ok he
    have h1 : Inv s1 := by
      by_cases ho : sp.origin = true
      · rw [if_pos ho] at hm1
        refine inv_set_mode _ _ _ _ ?_ hm1
        exact h
      · rw [if_neg ho] at hm1
        injection hm1 with hm1
        subst hm1
        exact h
    try dsimp only at hk
    obtain ⟨s2, hm2, hfin⟩ := pyBind_ok hk
    have h2 : Inv s2 := by
      by_cases hw : sp.wrap = true
      · rw [if_pos hw] at hm2
        refine inv_set_mode _ _ _ _ ?_ hm2
        exact h1
      · rw [if_neg hw] at hm2
        injection hm2 with hm2
        subst hm2
        exact h1
    try dsimp only at hfin
    injection hfin with hfin
    subst hfin
    unfold Inv at h2 ⊢
    unfold ensure_vbounds ensure_hbounds
    try dsimp only
    (repeat' split) <;> (try dsimp only) <;> omega
  · obtain ⟨s1, hm1, hfin⟩ := pyBind_ok he
    try dsimp only at hfin
    injection hfin with hfin
    subst hfin
    exact inv_cursor_position _ _ _ (inv_reset_mode _ _ _ _ h hm1)

theorem prepInv_of_inv (M : CharMetrics) (c : Char) (t : Screen) (h : Inv t) :
    PrepInv M c t := by
  unfold Inv at h
  unfold PrepInv
  omega

theorem inv_of_prepInv (M : CharMetrics) (c : Char) (t : Screen)
    (hp : PrepInv M c t) (hw : M.wcw c ≤ 0) : Inv t := by
  unfold PrepInv at hp
  unfold Inv
  omega

theorem inv_step_x (M : CharMetrics) (c : Char) (t : Screen) (w : Int)
    (hp : PrepInv M c t) (hw : 1 ≤ w) :
    Inv { t with cursor := { t.cursor with x := min (t.cursor.x + w) t.columns } } := by
  unfold PrepInv at hp
  unfold Inv
  try dsimp only
  omega

theorem prepInv_insert_characters (M : CharMetrics) (c : Char) (n : Option Int)
    (t : Screen) (h : PrepInv M c t) : PrepInv M c (insert_characters n t) := h

theorem inv_drawPrep (M : CharMetrics) (c : Char) (s : Screen)
    (hM : M.wcw c ≤ 2) (h : Inv s) : PrepInv M c (drawPrep M c s) := by
  unfold drawPrep
  try dsimp only
  (repeat' split) <;>
    first
      | exact prepInv_insert_characters M c _ _
          (prepInv_of_inv M c _ (inv_linefeed _ (inv_carriage_return _ h)))
      | exact prepInv_of_inv M c _ (inv_linefeed _ (inv_carriage_return _ h))
      | (refine prepInv_insert_characters M c _ _ ?_
         unfold PrepInv
         unfold Inv at h
         try dsimp only
         omega)
      | exact prepInv_insert_characters M c _ _ (prepInv_of_inv M c _ h)
      | exact prepInv_of_inv M c _ h
      | (unfold PrepInv
         unfold Inv at h
         try dsimp only
         omega)

theorem inv_drawGo (M : CharMetrics) (data : List Char) (s : Screen)
    (hM : ∀ c2, M.wcw c2 ≤ 2) (h : Inv s) : Inv (drawGo M data s) := by
  induction data generalizing s with
  | nil => exact h
  | cons c cs ih =>
      unfold drawGo
      dsimp only
      have hp := inv_drawPrep M c s (hM c) h
      have hw2 := hM c
      (repeat' split) <;>
        first
          | exact ih _ (inv_step_x M c _ _ hp (by omega))
          | exact ih _ (inv_of_prepInv M c _ hp (by omega))
          | exact inv_of_prepInv M c _ hp (by omega)

theorem inv_draw (M : CharMetrics) (data : List Char) (s : Screen)
    (hM : ∀ c2, M.wcw c2 ≤ 2) (h : Inv s) : Inv (draw M data s) := by
  unfold draw
  dsimp only
  exact inv_drawGo M _ _ hM h

theorem asciiMetrics_wcw_le_two : ∀ c, asciiMetrics.wcw c ≤ 2 := by
  intro c
  unfold asciiMetrics
  dsimp only
  (repeat' split) <;> omega

/-- C2: after every public screen operation that completes without raising,
the cursor satisfies `0 ≤ cursor.y < lines` and `0 ≤ cursor.x ≤ columns`.
The hypotheses state the operating conditions of the program: the screen is
well-formed (`Inv`, which the constructor establishes and these operations
preserve), character widths are at most 2 (true of `wcwidth`), and the
cursor-motion counts are nonnegative (true of every CSI-dispatched
parameter, which is accumulated from digits and clamped to 9999). -/
theorem C2_cursor_bounds (M : CharMetrics) (op : SOp) (s t : Screen)
    (hM : ∀ c, M.wcw c ≤ 2) (hargs : SOpArgsOK op) (hs : Inv s)
    (ht : applySOp M op s = Except.ok t) :
    0 ≤ t.cursor.y ∧ t.cursor.y < t.lines ∧
    0 ≤ t.cursor.x ∧ t.cursor.x ≤ t.columns := by
  have hInv : Inv t := by
    cases op with
    | resetOp => unfold applySOp at ht; injection ht with ht; subst ht; exact inv_reset _ hs
    | resizeOp l c => unfold applySOp at ht; exact absurd ht (resize_not_ok _ _ _ _)
    | drawOp d => unfold applySOp at ht; injection ht with ht; subst ht; exact inv_draw _ _ _ hM hs
    | cursorUpOp n => unfold applySOp at ht; injection ht with ht; subst ht; exact inv_cursor_up _ _ hargs hs
    | cursorDownOp n => unfold applySOp at ht; injection ht with ht; subst ht; exact inv_cursor_down _ _ hargs hs
    | cursorUp1Op n => unfold applySOp at ht; injection ht with ht; subst ht; exact inv_cursor_up1 _ _ hargs hs
    | cursorDown1Op n => unfold applySOp at ht; injection ht with ht; subst ht; exact inv_cursor_down1 _ _ hargs hs
    | cursorForwardOp n => unfold applySOp at ht; injection ht with ht; subst ht; exact inv_cursor_forward _ _ hs
    | cursorBackOp n => unfold applySOp at ht; injection ht with ht; subst ht; exact inv_cursor_back _ _ hs
    | cursorPositionOp l c => unfold applySOp at ht; injection ht with ht; subst ht; exact inv_cursor_position _ _ _ hs
    | cursorToColumnOp c => unfold applySOp at ht; injection ht with ht; subst ht; exact inv_cursor_to_column _ _ hs
    | cursorToLineOp l => unfold applySOp at ht; injection ht with ht; subst ht; exact inv_cursor_to_line _ _ hs
    | insertLinesOp n => unfold applySOp at ht; injection ht with ht; subst ht; exact inv_insert_lines _ _ hs
    | deleteLinesOp n => unfold applySOp at ht; injection ht with ht; subst ht; exact inv_delete_lines _ _ hs
    | insertCharactersOp n => unfold applySOp at ht; injection ht with ht; subst ht; exact inv_insert_characters _ _ hs
    | deleteCharactersOp n => unfold applySOp at ht; injection ht with ht; subst ht; exact inv_delete_characters _ _ hs
    | eraseCharactersOp n => unfold applySOp at ht; injection ht with ht; subst ht; exact inv_erase_characters _ _ hs
    | eraseInLineOp how priv => unfold applySOp at ht; exact inv_erase_in_line _ _ _ _ hs ht
    | eraseInDisplayOp how priv => unfold applySOp at ht; exact inv_erase_in_display _ _ _ _ hs ht
    | indexOp => unfold applySOp at ht; injection ht with ht; subst ht; exact inv_index _ hs
    | reverseIndexOp => unfold applySOp at ht; injection ht with ht; subst ht; exact inv_reverse_index _ hs
    | saveCursorOp => unfold applySOp at ht; injection ht with ht; subst ht; exact inv_save_cursor _ hs
    | restoreCursorOp => unfold applySOp at ht; exact inv_restore_cursor _ _ hs ht
    | setMarginsOp tm bm => unfold applySOp at ht; injection ht with ht; subst ht; exact inv_set_margins _ _ _ hs
    | setModeOp ms priv => unfold applySOp at ht; exact inv_set_mode _ _ _ _ hs ht
    | resetModeOp ms priv => unfold applySOp at ht; exact inv_reset_mode _ _ _ _ hs ht
  unfold Inv at hInv
  exact ⟨hInv.2.2.1, hInv.2.2.2.1, hInv.2.2.2.2.1, hInv.2.2.2.2.2.1⟩

theorem C2_cursor_bounds_witness :
    (∀ c, asciiMetrics.wcw c ≤ 2) ∧
    SOpArgsOK (SOp.cursorUpOp (some 3)) ∧ Inv em80.screen ∧
    applySOp asciiMetrics (SOp.cursorUpOp (some 3)) em80.screen =
      Except.ok (cursor_up (some 3) em80.screen) ∧
    (0 ≤ (cursor_up (some 3) em80.screen).cursor.y ∧
     (cursor_up (some 3) em80.screen).cursor.y <
       (cursor_up (some 3) em80.screen).lines ∧
     0 ≤ (cursor_up (some 3) em80.screen).cursor.x ∧
     (cursor_up (some 3) em80.screen).cursor.x ≤
       (cursor_up (some 3) em80.screen).columns) :=
  ⟨asciiMetrics_wcw_le_two, by unfold SOpArgsOK; decide, by unfold Inv; decide, rfl,
   C2_cursor_bounds asciiMetrics (SOp.cursorUpOp (some 3)) em80.screen _
     asciiMetrics_wcw_le_two (by unfold SOpArgsOK; decide)
     (by unfold Inv; decide) rfl⟩

/-- C9: after `reset()` the tab stops are `{7, 15, 23, ...}` — the base
`Screen.reset` values — because the second `reset` definition in
`CustomHistoryScreen` shadows the first (which would have restored
`{8, 16, 24, ...}`, the values the constructor seeds); `tab()` from column
0 therefore moves to column 7, not 8. -/
theorem C9_reset_tab_stops :
    em80.screen.tabstops = [8, 16, 24, 32, 40, 48, 56, 64, 72] ∧
    (reset em80.screen).tabstops = [7, 15, 23, 31, 39, 47, 55, 63, 71, 79] ∧
    (tab (reset em80.screen)).cursor.x = 7 := by
  decide

end TView
